import Mathlib

/-!
Shallow embedding of the 321vegan-api catalog service.

The embedding covers:
* `app/crud/filters.py` — the dynamic query-filter builder (`buildQueryFilters`,
  `OPERATOR_MAPPING`), modelled over an explicit value domain, rows, models with
  declared relationships, and a query representation that tracks join tuples;
* `app/crud/base.py` — `CRUDRepository.get_many` (filtering, sorting, pagination);
* `app/models/brand.py` — the hybrid `Brand.score` property, its SQL expression
  `_score_expression`, and `app/crud/brand.py`'s `_calculate_brand_score`;
* `app/crud/scoring.py` — `BrandCriterionScoreCRUD` (`create_or_update`,
  `delete_by_brand_and_criterion`, `get_brand_scoring_report`);
* `app/routes/brand.py` and `app/routes/dependencies.py` — HTTP status mapping of
  the brand endpoints and the JWT role-based auth pipeline.

Machine floats of the source (`score` columns) are modelled as rationals; Python's
`round(x, 2)` is modelled as exact round-half-to-even on rationals.
-/

namespace VeganApi

/-- Values flowing through columns and filter arguments (SQL values plus the
Python values a filter dict can carry). `null` is SQL NULL / Python `None`. -/
inductive Value where
  | null
  | int (i : Int)
  | num (q : ℚ)
  | str (s : String)
  | bool (b : Bool)
  | list (vs : List Value)
  | date (y m d : Int)

/-! ### Python string-splitting helpers

`buildQueryFilters` drives everything off `field.split('___', 1)`,
`field.split('__', 1)`, `rest.rsplit('__', 1)` and the `in` substring test.
We model them on `List Char`. -/

/-- Whether `p` is a literal prefix of `s`. -/
def isPrefixL : List Char → List Char → Bool
  | [], _ => true
  | _ :: _, [] => false
  | p :: ps, c :: cs => p == c && isPrefixL ps cs

/-- Index of the first occurrence of `pat` in `s` (Python `s.find(pat)` for
non-empty `pat`), `none` when absent. -/
def firstIdx (pat : List Char) : List Char → Option Nat
  | [] => none
  | c :: cs => if isPrefixL pat (c :: cs) then some 0 else (firstIdx pat cs).map (· + 1)

/-- Index of the last occurrence of `pat` in `s` (Python `s.rfind(pat)` for
non-empty `pat`), `none` when absent. -/
def lastIdx (pat : List Char) : List Char → Option Nat
  | [] => none
  | c :: cs =>
    match lastIdx pat cs with
    | some i => some (i + 1)
    | none => if isPrefixL pat (c :: cs) then some 0 else none

/-- Python `pat in s` (substring containment, `pat` non-empty). -/
def hasSub (pat s : List Char) : Bool := (firstIdx pat s).isSome

/-- Python `s.split(pat, 1)` when `pat` occurs in `s`. -/
def splitOnce (pat s : List Char) : Option (List Char × List Char) :=
  (firstIdx pat s).map fun i => (s.take i, s.drop (i + pat.length))

/-- Python `s.rsplit(pat, 1)` when `pat` occurs in `s`. -/
def rsplitOnce (pat s : List Char) : Option (List Char × List Char) :=
  (lastIdx pat s).map fun i => (s.take i, s.drop (i + pat.length))

theorem firstIdx_some_ne_nil {pat s : List Char} {i : Nat}
    (h : firstIdx pat s = some i) : s ≠ [] := by
  cases s with
  | nil => simp [firstIdx] at h
  | cons c cs => simp

theorem splitOnce_snd_length_lt {pat s a b : List Char}
    (hpat : 0 < pat.length) (h : splitOnce pat s = some (a, b)) :
    b.length < s.length := by
  unfold splitOnce at h
  cases hfi : firstIdx pat s with
  | none => rw [hfi] at h; simp at h
  | some i =>
    rw [hfi] at h
    simp only [Option.map_some', Option.some.injEq, Prod.mk.injEq] at h
    have hb : b = s.drop (i + pat.length) := h.2.symm
    have hs : s ≠ [] := firstIdx_some_ne_nil hfi
    have hslen : 0 < s.length := List.length_pos.mpr hs
    subst hb
    rw [List.length_drop]
    exact Nat.sub_lt hslen (by omega)

/-! ### SQL value semantics -/

/-- Numeric view of a value (`Integer` and `Float` columns compare freely). -/
def asNum : Value → Option ℚ
  | .int i => some (i : ℚ)
  | .num q => some q
  | _ => none

/-- Python truthiness (`if v:`), used by the `isnull` operator lambda. -/
def truthy : Value → Bool
  | .null => false
  | .int i => decide (i ≠ 0)
  | .num q => decide (q ≠ 0)
  | .str s => decide (s ≠ "")
  | .bool b => b
  | .list vs => !vs.isEmpty
  | .date _ _ _ => true

/-- SQL NULL test. -/
def sqlIsNull : Value → Bool
  | .null => true
  | _ => false

/-- Equality of two non-null SQL values (cross-type comparisons are never true). -/
def valEqNN (a b : Value) : Bool :=
  match asNum a, asNum b with
  | some x, some y => decide (x = y)
  | _, _ =>
    match a, b with
    | .str s, .str t => s == t
    | .bool x, .bool y => x == y
    | .date y1 m1 d1, .date y2 m2 d2 => y1 == y2 && m1 == m2 && d1 == d2
    | _, _ => false

/-- Three-valued SQL `=`: `c == None` renders as `IS NULL`, a comparison with a
NULL column is UNKNOWN and filters the row out. -/
def sqlEqB (c v : Value) : Bool :=
  match v with
  | .null => sqlIsNull c
  | _ => !sqlIsNull c && valEqNN c v

/-- Three-valued SQL `<>`: `c != None` renders as `IS NOT NULL`. -/
def sqlNeB (c v : Value) : Bool :=
  match v with
  | .null => !sqlIsNull c
  | _ => !sqlIsNull c && !valEqNN c v

/-- Ordering comparison on two SQL values, `none` when either side is NULL or
the values are incomparable. -/
def valCmp (a b : Value) : Option Ordering :=
  match asNum a, asNum b with
  | some x, some y =>
    some (if x < y then Ordering.lt else if x = y then Ordering.eq else Ordering.gt)
  | _, _ =>
    match a, b with
    | .str s, .str t =>
      some (if s < t then Ordering.lt else if s = t then Ordering.eq else Ordering.gt)
    | _, _ => none

def sqlLtB (c v : Value) : Bool := valCmp c v == some Ordering.lt
def sqlGtB (c v : Value) : Bool := valCmp c v == some Ordering.gt
def sqlLeB (c v : Value) : Bool :=
  valCmp c v == some Ordering.lt || valCmp c v == some Ordering.eq
def sqlGeB (c v : Value) : Bool :=
  valCmp c v == some Ordering.gt || valCmp c v == some Ordering.eq

/-- SQL `LIKE` pattern matching (`%` any sequence, `_` any one character). -/
def likeMatch : List Char → List Char → Bool
  | [], [] => true
  | '%' :: ps, [] => likeMatch ps []
  | _ :: _, [] => false
  | [], _ :: _ => false
  | '%' :: ps, c :: cs => likeMatch ps (c :: cs) || likeMatch ('%' :: ps) cs
  | '_' :: ps, _ :: cs => likeMatch ps cs
  | p :: ps, c :: cs => p == c && likeMatch ps cs
termination_by p s => (p.length, s.length)

/-- ASCII lowering, standing in for SQL `ILIKE`'s case folding. -/
def lowerL (s : List Char) : List Char := s.map Char.toLower

/-- Python `str(v)`, as used by `'%\x7bv\x7d%'.format(v=v)` in the `contains`
operator. -/
def pyStr : Value → String
  | .null => "None"
  | .int i => toString i
  | .num q => toString q
  | .str s => s
  | .bool b => if b then "True" else "False"
  | .list _ => "[...]"
  | .date y m d => toString y ++ "-" ++ toString m ++ "-" ++ toString d

/-- `extract('year'/'month'/'day', c)` on a date column. -/
def extractPart (part : String) (c : Value) : Option Int :=
  match c with
  | .date y m d =>
    if part = "year" then some y else if part = "month" then some m else some d
  | _ => none

/-- `extract(part, c) ⟨cmp⟩ v` as a three-valued SQL boolean. -/
def extractCmp (part : String) (c v : Value) (f : Ordering → Bool) : Bool :=
  match extractPart part c, asNum v with
  | some n, some m =>
    f (if (n : ℚ) < m then Ordering.lt else if (n : ℚ) = m then Ordering.eq else Ordering.gt)
  | _, _ => false

/-! ### `OPERATOR_MAPPING` (`app/crud/filters.py`) -/

/-- The keys of `OPERATOR_MAPPING`. -/
def OPERATOR_MAPPING_KEYS : List String :=
  ["isnull", "exact", "ne", "gt", "ge", "lt", "le", "in", "notin", "between",
   "like", "ilike", "startswith", "istartswith", "endswith", "iendswith", "contains",
   "year", "year_ne", "year_gt", "year_ge", "year_lt", "year_le",
   "month", "month_ne", "month_gt", "month_ge", "month_lt", "month_le",
   "day", "day_ne", "day_gt", "day_ge", "day_lt", "day_le"]

/-- `OPERATOR_MAPPING[ope](column, value)`: builds the predicate the clause
evaluates on a row's column value. `none` models a Python exception raised while
building the clause (e.g. `v + '%'` on a non-string, `v[0]` on a scalar);
SQL-side type mismatches that only surface at execution evaluate to `false`. -/
def applyOperator (ope : String) (v : Value) : Option (Value → Bool) :=
  if ope = "isnull" then
    some (fun c => if truthy v then sqlIsNull c else !sqlIsNull c)
  else if ope = "exact" then some (fun c => sqlEqB c v)
  else if ope = "ne" then some (fun c => sqlNeB c v)
  else if ope = "gt" then some (fun c => sqlGtB c v)
  else if ope = "ge" then some (fun c => sqlGeB c v)
  else if ope = "lt" then some (fun c => sqlLtB c v)
  else if ope = "le" then some (fun c => sqlLeB c v)
  else if ope = "in" then
    match v with
    | .list vs => some (fun c => !sqlIsNull c && vs.any (fun x => valEqNN c x))
    | _ => none
  else if ope = "notin" then
    match v with
    | .list vs => some (fun c => !sqlIsNull c && vs.all (fun x => !sqlIsNull x && !valEqNN c x))
    | _ => none
  else if ope = "between" then
    match v with
    | .list (a :: b :: _) => some (fun c => sqlGeB c a && sqlLeB c b)
    | .str s =>
      match s.data with
      | a :: b :: _ => some (fun c => sqlGeB c (.str ⟨[a]⟩) && sqlLeB c (.str ⟨[b]⟩))
      | _ => none
    | _ => none
  else if ope = "like" then
    some (fun c => match c, v with
      | .str t, .str p => likeMatch p.data t.data
      | _, _ => false)
  else if ope = "ilike" then
    some (fun c => match c, v with
      | .str t, .str p => likeMatch (lowerL p.data) (lowerL t.data)
      | _, _ => false)
  else if ope = "startswith" then
    some (fun c => match c, v with
      | .str t, .str p => likeMatch (p.data ++ ['%']) t.data
      | _, _ => false)
  else if ope = "istartswith" then
    match v with
    | .str p => some (fun c => match c with
        | .str t => likeMatch (lowerL (p.data ++ ['%'])) (lowerL t.data)
        | _ => false)
    | _ => none
  else if ope = "endswith" then
    some (fun c => match c, v with
      | .str t, .str p => likeMatch ('%' :: p.data) t.data
      | _, _ => false)
  else if ope = "iendswith" then
    match v with
    | .str p => some (fun c => match c with
        | .str t => likeMatch (lowerL ('%' :: p.data)) (lowerL t.data)
        | _ => false)
    | _ => none
  else if ope = "contains" then
    some (fun c => match c with
      | .str t => likeMatch (lowerL ('%' :: (pyStr v).data ++ ['%'])) (lowerL t.data)
      | _ => false)
  else if ope = "year" then some (fun c => extractCmp "year" c v (· == .eq))
  else if ope = "year_ne" then some (fun c => extractCmp "year" c v (· != .eq))
  else if ope = "year_gt" then some (fun c => extractCmp "year" c v (· == .gt))
  else if ope = "year_ge" then some (fun c => extractCmp "year" c v (· != .lt))
  else if ope = "year_lt" then some (fun c => extractCmp "year" c v (· == .lt))
  else if ope = "year_le" then some (fun c => extractCmp "year" c v (· != .gt))
  else if ope = "month" then some (fun c => extractCmp "month" c v (· == .eq))
  else if ope = "month_ne" then some (fun c => extractCmp "month" c v (· != .eq))
  else if ope = "month_gt" then some (fun c => extractCmp "month" c v (· == .gt))
  else if ope = "month_ge" then some (fun c => extractCmp "month" c v (· != .lt))
  else if ope = "month_lt" then some (fun c => extractCmp "month" c v (· == .lt))
  else if ope = "month_le" then some (fun c => extractCmp "month" c v (· != .gt))
  else if ope = "day" then some (fun c => extractCmp "day" c v (· == .eq))
  else if ope = "day_ne" then some (fun c => extractCmp "day" c v (· != .eq))
  else if ope = "day_gt" then some (fun c => extractCmp "day" c v (· == .gt))
  else if ope = "day_ge" then some (fun c => extractCmp "day" c v (· != .lt))
  else if ope = "day_lt" then some (fun c => extractCmp "day" c v (· == .lt))
  else if ope = "day_le" then some (fun c => extractCmp "day" c v (· != .gt))
  else none

/-! ### Rows, models, relationships, database -/

/-- A database row: an association list from column names to values. -/
abbrev Row := List (String × Value)

/-- Column access on a row; SQL never distinguishes a missing column from NULL
once a query executes, so absent columns read as NULL. -/
def Row.col (r : Row) (c : String) : Value := ((r.lookup c).getD Value.null)

/-- A declared ORM relationship: target table, local FK column, remote column.
`Brand.parent` is `⟨"brands", "parent_id", "id"⟩`. -/
structure RelDef where
  target : String
  localKey : String
  remoteKey : String
deriving DecidableEq

/-- A mapped model class: table name, column attribute names, and the declared
`RelationshipProperty` attributes with their join data. -/
structure ModelDef where
  tableName : String
  attrs : List String
  rels : List (String × RelDef)
deriving DecidableEq

/-- The database: rows per table name. -/
abbrev DB := List (String × List Row)

def DB.rows (db : DB) (t : String) : List Row := (db.lookup t).getD []

/-- The model registry (stands for the mapper: `relationship.property.mapper.class_`). -/
abbrev Registry := List ModelDef

def findModel (reg : Registry) (t : String) : Option ModelDef :=
  reg.find? (fun m => m.tableName = t)

/-- A legacy ORM `Query`: the joined tuples (base entity first, one extra row per
`join`), the tuple arity, and the current join point (the entity `filter_by`
criteria resolve against — the last joined entity, initially the base). -/
structure Query where
  tuples : List (List Row)
  width : Nat
  jp : ModelDef
  jpIdx : Nat

/-- The entity an attribute access `getattr(model, f)` resolves against:
a model (or an alias of one) at a tuple position. -/
structure Entity where
  model : ModelDef
  idx : Nat

/-- `db.query(model)`: all rows of the model's table as 1-tuples. -/
def baseQuery (db : DB) (m : ModelDef) : Query :=
  { tuples := (db.rows m.tableName).map (fun r => [r]), width := 1, jp := m, jpIdx := 0 }

/-- `query.join(r_class, relationship)`: inner join on the FK equality, the new
alias sits at position `q.width` and becomes the join point. -/
def Query.joinRel (q : Query) (db : DB) (srcIdx : Nat) (rel : RelDef) (target : ModelDef) :
    Query :=
  { tuples := q.tuples.flatMap (fun t =>
      (db.rows target.tableName).filterMap (fun r =>
        if sqlEqB ((t.getD srcIdx []).col rel.localKey) (r.col rel.remoteKey) &&
           !sqlIsNull ((t.getD srcIdx []).col rel.localKey) then
          some (t ++ [r])
        else none)),
    width := q.width + 1, jp := target, jpIdx := q.width }

/-- `query.filter(clause)` where the clause tests column `c` of the entity at
tuple position `idx`. -/
def Query.filterAt (q : Query) (idx : Nat) (c : String) (pred : Value → Bool) : Query :=
  { q with tuples := q.tuples.filter (fun t => pred ((t.getD idx []).col c)) }

/-- `query.filter_by(**kwargs)`: equality criteria against the join point
(no-op for an empty dict); `none` models the error raised when a key is not a
mapped column of the join point's entity. -/
def Query.filterBy (q : Query) (kvs : List (String × Value)) : Option Query :=
  if kvs.isEmpty then some q
  else if kvs.all (fun kv => q.jp.attrs.contains kv.1) then
    some { q with tuples := q.tuples.filter (fun t =>
      kvs.all (fun kv => sqlEqB ((t.getD q.jpIdx []).col kv.1) kv.2)) }
  else none

/-- The rows of the base entity a fully built query returns. -/
def Query.baseRows (q : Query) : List Row := q.tuples.map (fun t => t.getD 0 [])

/-! ### `buildQueryFilters` (`app/crud/filters.py`)

Filter keys are `List Char` internally (the split results); the public wrapper
takes `String` keys. A thrown Python exception is `Except.error q` carrying the
query as already reassigned when the exception surfaced: the surrounding
`try/except` returns exactly that query. -/

def RELATION_SPLITTER : List Char := "___".data
def OPERATOR_SPLITTER : List Char := "__".data

/-- `getattr(model, name)` succeeds on mapped columns and on declared
relationships. -/
def gettable (m : ModelDef) (name : String) : Bool :=
  m.attrs.contains name || (m.rels.lookup name).isSome

/-- Weight of a filter-arg list, the termination measure of the builder. -/
def keyWeight (args : List (List Char × Value)) : Nat :=
  args.foldl (fun a kv => a + kv.1.length + 1) 0

theorem keyWeight_foldl (l : List (List Char × Value)) :
    ∀ n : Nat, List.foldl (fun a kv => a + kv.1.length + 1) n l = n + keyWeight l := by
  induction l with
  | nil => intro n; simp [keyWeight]
  | cons kv tl ih =>
    intro n
    show List.foldl _ (n + kv.1.length + 1) tl = n + keyWeight (kv :: tl)
    rw [ih]
    show _ = n + List.foldl _ (0 + kv.1.length + 1) tl
    rw [ih]
    omega

theorem keyWeight_cons (f : List Char) (v : Value) (rest : List (List Char × Value)) :
    keyWeight ((f, v) :: rest) = f.length + 1 + keyWeight rest := by
  show List.foldl _ (0 + f.length + 1) rest = _
  rw [keyWeight_foldl]
  omega

mutual

/-- One iteration of the `for field, value in filter_args.items()` loop of
`buildQueryFilters`. `.ok (q', none)` — key handled (or skipped), continue;
`.ok (q', some kv)` — plain key collected into `filters_by`;
`.error q'` — an exception escaped the loop with the query at `q'`. -/
def applyKey (reg : Registry) (db : DB) (ent : Entity) (q : Query)
    (field : List Char) (v : Value) :
    Except Query (Query × Option (String × Value)) :=
  match hsp : splitOnce RELATION_SPLITTER field with
  | some (relf, rest) =>
    match ent.model.rels.lookup (String.mk relf) with
    | none => .ok (q, none)
    | some rel =>
      match findModel reg rel.target with
      | none => .error q
      | some rModel =>
        let q1 := if hasSub RELATION_SPLITTER rest then
            processArgs reg db ⟨rModel, q.width⟩ (q.joinRel db ent.idx rel rModel)
              [] [(rest, v)]
          else q
        let rs := match rsplitOnce OPERATOR_SPLITTER rest with
          | some p => p
          | none => (rest, "exact".data)
        let rfield := String.mk rs.1
        let ope := String.mk rs.2
        if rModel.attrs.contains rfield then
          if OPERATOR_MAPPING_KEYS.contains ope then
            match applyOperator ope v with
            | some pred =>
              .ok ((q1.joinRel db ent.idx rel rModel).filterAt q1.width rfield pred, none)
            | none => .error q1
          else .ok (q1, none)
        else if (rModel.rels.lookup rfield).isSome then
          if OPERATOR_MAPPING_KEYS.contains ope then .error q1
          else .ok (q1, none)
        else .error q1
  | none =>
    match splitOnce OPERATOR_SPLITTER field with
    | some (fn, op') =>
      let fname := String.mk fn
      let ope := String.mk op'
      if ent.model.attrs.contains fname then
        if OPERATOR_MAPPING_KEYS.contains ope then
          match applyOperator ope v with
          | some pred => .ok (q.filterAt ent.idx fname pred, none)
          | none => .error q
        else .ok (q, none)
      else if (ent.model.rels.lookup fname).isSome then
        if OPERATOR_MAPPING_KEYS.contains ope then .error q
        else .ok (q, none)
      else .ok (q, none)
    | none =>
      if gettable ent.model (String.mk field) then .ok (q, some (String.mk field, v))
      else .ok (q, none)
termination_by 2 * (field.length + 1)
decreasing_by
  have h := splitOnce_snd_length_lt (by decide) hsp
  simp only [keyWeight_cons, keyWeight, List.foldl]
  omega

/-- The loop of `buildQueryFilters` plus the trailing
`query.filter_by(**filters_by)` and the enclosing `try/except` that returns the
query built so far when anything raises. -/
def processArgs (reg : Registry) (db : DB) (ent : Entity) (q : Query)
    (fby : List (String × Value)) (args : List (List Char × Value)) : Query :=
  match args with
  | [] =>
    match q.filterBy fby with
    | some q' => q'
    | none => q
  | (f, v) :: rest =>
    match applyKey reg db ent q f v with
    | .error q' => q'
    | .ok (q', none) => processArgs reg db ent q' fby rest
    | .ok (q', some kv) => processArgs reg db ent q' (fby ++ [kv]) rest
termination_by 2 * keyWeight args + 1
decreasing_by
  all_goals simp only [keyWeight_cons]
  all_goals omega

end

/-- `buildQueryFilters(model, query, filter_args)` with string-keyed filter
arguments. -/
def buildQueryFilters (reg : Registry) (db : DB) (ent : Entity) (q : Query)
    (args : List (String × Value)) : Query :=
  processArgs reg db ent q [] (args.map (fun kv => (kv.1.data, kv.2)))

/-! ### `CRUDRepository.get_many` (`app/crud/base.py`)

`ORDER BY` needs a total order on column values; we order by type rank, then
numerically, then lexically (NULLs last in ascending order, as in PostgreSQL). -/

/-- Sort key of a column value, valued in a linearly ordered lexicographic
product. -/
def sortKey (v : Value) : Lex (Nat × Lex (ℚ × String)) :=
  match v with
  | .bool b => toLex (0, toLex ((if b then 1 else 0 : ℚ), ""))
  | .int i => toLex (1, toLex ((i : ℚ), ""))
  | .num q => toLex (1, toLex (q, ""))
  | .str s => toLex (2, toLex (0, s))
  | .date y m d => toLex (3, toLex ((y * 10000 + m * 100 + d : ℚ), ""))
  | .list _ => toLex (4, toLex (0, ""))
  | .null => toLex (5, toLex (0, ""))

/-- `getattr(self._model, order_by, 'created_at')`: the effective ORDER BY
column (the string default makes an unknown field sort by `created_at`). -/
def effectiveOrderKey (m : ModelDef) (order_by : String) : String :=
  if m.attrs.contains order_by then order_by else "created_at"

/-- Ordering relation on joined tuples for `order_by(asc(col))` /
`order_by(desc(col))` over the base entity's column. -/
def tupleLe (key : String) (descending : Bool) (t u : List Row) : Prop :=
  if descending then sortKey ((u.getD 0 []).col key) ≤ sortKey ((t.getD 0 []).col key)
  else sortKey ((t.getD 0 []).col key) ≤ sortKey ((u.getD 0 []).col key)

instance (key : String) (descending : Bool) : DecidableRel (tupleLe key descending) := by
  intro t u
  unfold tupleLe
  split <;> infer_instance

/-- `CRUDRepository.get_many`: filter via `buildQueryFilters`, count, sort,
offset/skip, limit, and return the base-entity rows with the pre-pagination
count. -/
def get_many (reg : Registry) (db : DB) (m : ModelDef) (args : List (String × Value))
    (skip limit : Nat) (order_by : String) (descending : Bool) :
    List Row × Nat :=
  let q := buildQueryFilters reg db ⟨m, 0⟩ (baseQuery db m) args
  let total := q.tuples.length
  let key := effectiveOrderKey m order_by
  let sorted := List.insertionSort (tupleLe key descending) q.tuples
  (((sorted.drop skip).take limit).map (fun t => t.getD 0 []), total)

/-! ### Brand scoring (`app/models/brand.py`, `app/crud/brand.py`,
`app/models/scoring.py`)

Scores are `Float` columns in `[0, 5]`, modelled as rationals; Python's
`round(x, 2)` is modelled as exact round-half-to-even at two decimals. -/

/-- A row of `brands` (the columns scoring touches). -/
structure BrandRow where
  id : Int
  name : String := ""
  parent_id : Option Int := none
deriving DecidableEq

/-- A row of `scoring_categories`. -/
structure CategoryRow where
  id : Int
  name : String := ""
deriving DecidableEq

/-- A row of `scoring_criteria`. -/
structure CriterionRow where
  id : Int
  category_id : Int := 0
deriving DecidableEq

/-- A row of `brand_criterion_scores`. -/
structure ScoreRow where
  brand_id : Int
  criterion_id : Int
  score : ℚ
  description : Option String := none
deriving DecidableEq

/-- The database state the scoring code reads. -/
structure ScoringDB where
  brands : List BrandRow := []
  categories : List CategoryRow := []
  criteria : List CriterionRow := []
  scores : List ScoreRow := []

/-- Round half to even (Python's `round`). -/
def roundHalfEven (q : ℚ) : ℤ :=
  if q - ⌊q⌋ < 1/2 then ⌊q⌋
  else if q - ⌊q⌋ > 1/2 then ⌊q⌋ + 1
  else if ⌊q⌋ % 2 = 0 then ⌊q⌋ else ⌊q⌋ + 1

/-- Python `round(q, 2)`. -/
def round2 (q : ℚ) : ℚ := (roundHalfEven (q * 100) : ℚ) / 100

/-- `brand.criterion_scores` (the backref on `BrandCriterionScore.brand`). -/
def criterionScores (db : ScoringDB) (b : BrandRow) : List ScoreRow :=
  db.scores.filter (fun s => s.brand_id = b.id)

/-- Sum of a list of score rows. -/
def sumScores (l : List ScoreRow) : ℚ := (l.map (fun s => s.score)).sum

/-- `self.parent`: the relationship is truthy exactly when `parent_id` points at
an existing brand row. -/
def parentOf (db : ScoringDB) (b : BrandRow) : Option BrandRow :=
  b.parent_id.bind (fun pid => db.brands.find? (fun x => x.id = pid))

/-- `Brand.root_brand`: follow `parent` links to the root. The fuel only makes
the Python recursion (which diverges on a cyclic chain) total; `none` stands for
the unreachable `RecursionError`. -/
def root_brand (fuel : Nat) (db : ScoringDB) (b : BrandRow) : Option BrandRow :=
  match fuel with
  | 0 => none
  | fuel + 1 =>
    match parentOf db b with
    | none => some b
    | some p => root_brand fuel db p

/-- The first block of `Brand.score`: the brand's own average, `none` when the
block does not `return` (no own scores, or `max_total_point == 0`). -/
def ownScoreFormula (db : ScoringDB) (b : BrandRow) : Option ℚ :=
  if (criterionScores db b).isEmpty then none
  else if ((db.criteria.length : ℚ) * 5) > 0 then
    some (round2 (sumScores (criterionScores db b) * 100 / ((db.criteria.length : ℚ) * 5)))
  else none

/-- `Brand.score` (the Python-side hybrid property), with fuel for the
`root.score` recursion. -/
def scoreFuel (fuel : Nat) (db : ScoringDB) (b : BrandRow) : Option ℚ :=
  match fuel with
  | 0 => none
  | fuel + 1 =>
    match ownScoreFormula db b with
    | some s => some s
    | none =>
      match parentOf db b with
      | none => none
      | some _ =>
        match root_brand (db.brands.length + 1) db b with
        | none => none
        | some root =>
          if root.id = b.id then none
          else
            match scoreFuel fuel db root with
            | some rootScore => some rootScore
            | none => none

/-- `Brand.score`. -/
def score (db : ScoringDB) (b : BrandRow) : Option ℚ :=
  scoreFuel (db.brands.length + 1) db b

/-- `Brand._score_expression` (the SQL-side hybrid expression): a CASE giving
NULL when the criteria table is empty and otherwise
`round((SUM(score) * 100) / max_total_point, 2)`, which is NULL when the brand
has no score rows (SUM over the empty set is NULL and propagates). -/
def score_expression (db : ScoringDB) (b : BrandRow) : Option ℚ :=
  if ((db.criteria.length : ℚ) * 5) = 0 then none
  else if (criterionScores db b).isEmpty then none
  else some (round2 (sumScores (criterionScores db b) * 100 / ((db.criteria.length : ℚ) * 5)))

/-- `BrandCRUDRepository._calculate_brand_score`: `round(AVG(score), 2)` over
the brand's score rows, `none` when the aggregate is NULL. -/
def calculate_brand_score (db : ScoringDB) (brand_id : Int) : Option ℚ :=
  if (db.scores.filter (fun s => s.brand_id = brand_id)).isEmpty then none
  else some (round2 (sumScores (db.scores.filter (fun s => s.brand_id = brand_id)) /
    ((db.scores.filter (fun s => s.brand_id = brand_id)).length : ℚ)))

/-- Well-formedness of the brand table: distinct primary keys and every parent
chain reaches a root (no cycles), i.e. the Python recursions terminate. -/
def WFBrands (db : ScoringDB) : Prop :=
  (db.brands.map (fun b => b.id)).Nodup ∧
  ∀ b ∈ db.brands, (root_brand (db.brands.length + 1) db b).isSome = true

/-! ### `BrandCriterionScoreCRUD.get_brand_scoring_report` (`app/crud/scoring.py`) -/

/-- A `CategoryScore` response item. -/
structure CategoryScoreOut where
  category_id : Int
  category_name : String
  average_score : Option ℚ
  scores : List ScoreRow

/-- A `BrandScoringReport` response. -/
structure BrandScoringReport where
  brand_id : Int
  brand_name : String
  parent_brands : List String
  global_score : Option ℚ
  category_scores : List CategoryScoreOut
  total_scores_count : Nat
  total_criteria_count : Nat

/-- `Brand.parent_name_tree` (fuel totalises the recursion on parent chains). -/
def parent_name_tree (fuel : Nat) (db : ScoringDB) (b : BrandRow) : List String :=
  match fuel with
  | 0 => [b.name]
  | fuel + 1 =>
    match parentOf db b with
    | none => [b.name]
    | some p => b.name :: parent_name_tree fuel db p

/-- The per-category score query:
`query(BrandCriterionScore).join(Criterion).filter(brand_id, category_id).all()`
— an inner join, one result row per matching (score, criterion) pair. -/
def categoryJoinScores (db : ScoringDB) (brand_id cat_id : Int) : List ScoreRow :=
  db.scores.flatMap (fun s =>
    if s.brand_id = brand_id then
      (db.criteria.filter (fun c =>
        decide (c.id = s.criterion_id) && decide (c.category_id = cat_id))).map (fun _ => s)
    else [])

/-- The loop state of `get_brand_scoring_report`: accumulated `category_scores`,
`all_category_averages`, `total_scores_count`, `total_criteria_count`. -/
structure ReportAcc where
  category_scores : List CategoryScoreOut := []
  all_category_averages : List ℚ := []
  total_scores_count : Nat := 0
  total_criteria_count : Nat := 0

/-- The loop's `category_average` variable: the unrounded arithmetic mean of
the brand's scores in the category, `None` when there are none. -/
def categoryAverage (db : ScoringDB) (brand_id : Int) (category : CategoryRow) : Option ℚ :=
  if (categoryJoinScores db brand_id category.id).isEmpty then none
  else some (sumScores (categoryJoinScores db brand_id category.id) /
    ((categoryJoinScores db brand_id category.id).length : ℚ))

/-- The `CategoryScore` entry the loop appends for one category. -/
def catEntry (db : ScoringDB) (brand_id : Int) (category : CategoryRow) : CategoryScoreOut :=
  { category_id := category.id, category_name := category.name,
    average_score := (categoryAverage db brand_id category).map round2,
    scores := categoryJoinScores db brand_id category.id }

/-- One iteration of the `for category in categories` loop. -/
def reportStep (db : ScoringDB) (brand_id : Int) (acc : ReportAcc) (category : CategoryRow) :
    ReportAcc :=
  { category_scores := acc.category_scores ++ [catEntry db brand_id category],
    all_category_averages := acc.all_category_averages ++
      (categoryAverage db brand_id category).toList,
    total_scores_count := acc.total_scores_count +
      (if (categoryJoinScores db brand_id category.id).isEmpty then 0
       else (categoryJoinScores db brand_id category.id).length),
    total_criteria_count := acc.total_criteria_count +
      (db.criteria.filter (fun c => decide (c.category_id = category.id))).length }

/-- `get_brand_scoring_report`. -/
def get_brand_scoring_report (db : ScoringDB) (brand_id : Int) : Option BrandScoringReport :=
  match db.brands.find? (fun b => b.id = brand_id) with
  | none => none
  | some brand =>
    some
      { brand_id := brand_id, brand_name := brand.name,
        parent_brands :=
          if (parent_name_tree (db.brands.length + 1) db brand).length > 1 then
            (parent_name_tree (db.brands.length + 1) db brand).drop 1
          else [],
        global_score :=
          if (db.categories.foldl (reportStep db brand_id) {}).all_category_averages.isEmpty
          then none
          else some (round2
            ((db.categories.foldl (reportStep db brand_id) {}).all_category_averages.sum /
             ((db.categories.foldl (reportStep db brand_id) {}).all_category_averages.length : ℚ))),
        category_scores := (db.categories.foldl (reportStep db brand_id) {}).category_scores,
        total_scores_count := (db.categories.foldl (reportStep db brand_id) {}).total_scores_count,
        total_criteria_count :=
          (db.categories.foldl (reportStep db brand_id) {}).total_criteria_count }

/-! ### `BrandCriterionScoreCRUD.create_or_update` / `delete_by_brand_and_criterion`
(`app/crud/scoring.py`) -/

/-- `BrandCriterionScoreCreate` (`score` is required, 0–5; `description`
optional). -/
structure BrandCriterionScoreCreate where
  criterion_id : Int
  score : ℚ
  description : Option String := none

/-- The filter predicate
`BrandCriterionScore.brand_id == brand_id, BrandCriterionScore.criterion_id == criterion_id`. -/
def pairPred (bid cid : Int) (s : ScoreRow) : Bool :=
  decide (s.brand_id = bid) && decide (s.criterion_id = cid)

/-- The in-place update of the fetched row: every `obj_in` field except
`criterion_id` whose value is not `None` is assigned. -/
def updateScoreRow (s : ScoreRow) (obj : BrandCriterionScoreCreate) : ScoreRow :=
  { s with score := obj.score,
           description := match obj.description with
                          | none => s.description
                          | some d => some d }

/-- Update the first row matching the (brand, criterion) pair — the row
`.first()` returned. -/
def updateFirstScore (brand_id : Int) (obj : BrandCriterionScoreCreate) :
    List ScoreRow → List ScoreRow
  | [] => []
  | s :: tl =>
    if s.brand_id = brand_id ∧ s.criterion_id = obj.criterion_id then
      updateScoreRow s obj :: tl
    else s :: updateFirstScore brand_id obj tl

/-- Remove the first row matching the (brand, criterion) pair. -/
def removeFirstScore (brand_id criterion_id : Int) : List ScoreRow → List ScoreRow
  | [] => []
  | s :: tl =>
    if s.brand_id = brand_id ∧ s.criterion_id = criterion_id then tl
    else s :: removeFirstScore brand_id criterion_id tl

/-- `create_or_update`: update the existing (brand, criterion) row when present,
insert a fresh row otherwise. -/
def create_or_update (st : List ScoreRow) (brand_id : Int)
    (obj : BrandCriterionScoreCreate) : List ScoreRow :=
  match st.find? (pairPred brand_id obj.criterion_id) with
  | some _ => updateFirstScore brand_id obj st
  | none => st ++ [{ brand_id := brand_id, criterion_id := obj.criterion_id,
                     score := obj.score, description := obj.description }]

/-- `delete_by_brand_and_criterion`: delete the row and report whether one
existed. -/
def delete_by_brand_and_criterion (st : List ScoreRow) (brand_id criterion_id : Int) :
    List ScoreRow × Bool :=
  match st.find? (pairPred brand_id criterion_id) with
  | some _ => (removeFirstScore brand_id criterion_id st, true)
  | none => (st, false)

/-- The constrained key of a score row. -/
def pairOf (s : ScoreRow) : Int × Int := (s.brand_id, s.criterion_id)

/-- The uniqueness invariant backing `unique_brand_criterion_score`: at most one
row per (brand_id, criterion_id) pair. -/
def uniquePairs (st : List ScoreRow) : Prop := (st.map pairOf).Nodup

instance (st : List ScoreRow) : Decidable (uniquePairs st) := by
  unfold uniquePairs
  exact List.nodupDecidable _

/-! ### Brand endpoints (`app/routes/brand.py`)

The endpoints are modelled over the brands table with its relevant constraints
(NOT NULL and UNIQUE on `name`, the self FK on `parent_id`). A failing `commit`
raises; the transaction is rolled back, so on every error the table is
returned unchanged. Deleting a brand goes through the ORM's default
relationship cascade: the children's nullable `parent_id` is set to NULL
during flush, so the delete itself succeeds. `DbErr.otherExc` stands for a
non-`IntegrityError` runtime exception (e.g. a lost connection), injectable
through the `fault` parameter. -/

/-- A row of `brands` as the endpoints see it. -/
structure BrandRec where
  id : Int
  name : String
  parent_id : Option Int := none

abbrev BrandTable := List BrandRec

/-- `BrandUpdate` with pydantic's set/unset tri-state (`exclude_unset=True`):
`none` = field absent, `some none` = explicit null, `some (some v)` = value. -/
structure BrandUpdate where
  name : Option (Option String) := none
  parent_id : Option (Option Int) := none

/-- The exceptions a brand write can surface, keyed by the violated constraint
(the route handlers dispatch on the constraint named in the error message). -/
inductive DbErr where
  | uniqueName
  | fkParent
  | notNullName
  | otherExc

/-- The name an update leaves on the row (`exclude_unset=True`: an unset field
keeps the old value, an explicitly null field becomes NULL). -/
def effName (b : BrandRec) (u : BrandUpdate) : Option String :=
  match u.name with | none => some b.name | some v => v

/-- The parent_id an update leaves on the row. -/
def effPid (b : BrandRec) (u : BrandUpdate) : Option Int :=
  match u.parent_id with | none => b.parent_id | some v => v

/-- UPDATE brands SET ... WHERE id = b.id, applying only the set fields. -/
def dbUpdateBrand (st : BrandTable) (b : BrandRec) (u : BrandUpdate) :
    Except DbErr (BrandTable × BrandRec) :=
  match effName b u with
  | none => .error .notNullName
  | some nm =>
    if st.any (fun x => decide (x.id ≠ b.id) && decide (x.name = nm)) then
      .error .uniqueName
    else
      let nb : BrandRec := { id := b.id, name := nm, parent_id := effPid b u }
      match effPid b u with
      | some pid =>
        if st.any (fun x => x.id = pid) then
          .ok (st.map (fun x => if x.id = b.id then nb else x), nb)
        else .error .fkParent
      | none => .ok (st.map (fun x => if x.id = b.id then nb else x), nb)

/-- `db.delete(brand); db.commit()`: the default relationship cascade (no
`passive_deletes`) first issues `UPDATE brands SET parent_id = NULL` for every
child of the brand (the column is nullable), then deletes the row. -/
def dbDeleteBrand (st : BrandTable) (b : BrandRec) : Except DbErr BrandTable :=
  .ok ((st.map (fun x =>
      if x.parent_id = some b.id then { x with parent_id := none } else x)).filter
    (fun x => decide (x.id ≠ b.id)))

/-- The `except IntegrityError / except Exception` branches shared by
`create_brand` and `update_brand`: 409 for the `name` unique constraint, 400
for the `parent_id` foreign key, 400 (`Data integrity error`) for every other
`IntegrityError`, 500 for everything else. -/
def writeErrStatus : DbErr → Nat
  | .uniqueName => 409
  | .fkParent => 400
  | .notNullName => 400
  | .otherExc => 500

/-- Inject an environment fault into a database call. -/
def withFault {α : Type} (fault : Option DbErr) (r : Except DbErr α) : Except DbErr α :=
  match fault with
  | some e => .error e
  | none => r

/-- `PUT /brands/{id}` (`update_brand`). -/
def update_brand (st : BrandTable) (id : Int) (u : BrandUpdate) (fault : Option DbErr) :
    Nat × BrandTable :=
  match st.find? (fun b => b.id = id) with
  | none => (404, st)
  | some b =>
    match withFault fault (dbUpdateBrand st b u) with
    | .ok (st', _) => (200, st')
    | .error e => (writeErrStatus e, st)

/-- `DELETE /brands/{id}` (`delete_brand`): only `except Exception` exists, so
every failure maps to 500. -/
def delete_brand (st : BrandTable) (id : Int) (fault : Option DbErr) :
    Nat × BrandTable :=
  match st.find? (fun b => b.id = id) with
  | none => (404, st)
  | some b =>
    match withFault fault (dbDeleteBrand st b) with
    | .ok st' => (204, st')
    | .error _ => (500, st)

/-- `GET /brands/{id}` (`fetch_brand_by_id`): (status, response body). -/
def fetch_brand_by_id (st : BrandTable) (id : Int) : Nat × Option BrandRec :=
  match st.find? (fun b => b.id = id) with
  | none => (404, none)
  | some b => (200, some b)

/-! ### JWT role-based auth (`app/routes/dependencies.py`) -/

/-- `UserRole` (a `str` enum). -/
inductive UserRole where
  | admin
  | contributor
  | user
deriving DecidableEq

def UserRole.toStr : UserRole → String
  | .admin => "admin"
  | .contributor => "contributor"
  | .user => "user"

/-- A row of `users` (the columns auth touches). -/
structure UserRec where
  id : Int
  is_active : Bool
  role : UserRole
deriving DecidableEq

/-- A decoded `TokenPayload`. -/
structure TokenPayload where
  sub : Int
deriving DecidableEq

/-- Modelled from the spec: `app.exceptions._get_credential_exception` is not
under `src/`; per the spec's "mapping exceptions to HTTP status codes" it
raises an HTTP error carrying exactly the status code it is given. -/
def get_credential_exception (statusCode : Nat) : Nat := statusCode

/-- `get_token`: the decoder's outcome is `none` when `jwt.decode` or the
`TokenPayload` validation raised, which maps to 401. -/
def get_token (decoded : Option TokenPayload) : Except Nat TokenPayload :=
  match decoded with
  | none => .error (get_credential_exception 401)
  | some t => .ok t

/-- `get_current_user`: look the subject up, 404 when absent. -/
def get_current_user (users : List UserRec) (decoded : Option TokenPayload) :
    Except Nat UserRec :=
  match get_token decoded with
  | .error c => .error c
  | .ok t =>
    match users.find? (fun u => u.id = t.sub) with
    | none => .error (get_credential_exception 404)
    | some u => .ok u

/-- `get_current_active_user`: 400 for an inactive user. -/
def get_current_active_user (users : List UserRec) (decoded : Option TokenPayload) :
    Except Nat UserRec :=
  match get_current_user users decoded with
  | .error c => .error c
  | .ok u => if u.is_active then .ok u else .error (get_credential_exception 400)

/-- `RoleChecker(allowed_roles)`: 403 when the active user's role is not
allowed. -/
def roleChecker (allowed : List String) (users : List UserRec)
    (decoded : Option TokenPayload) : Except Nat UserRec :=
  match get_current_active_user users decoded with
  | .error c => .error c
  | .ok u =>
    if allowed.contains u.role.toStr then .ok u
    else .error (get_credential_exception 403)

/-- `GET /brands/{id}` behind the router-level `get_current_active_user`
dependency. -/
def fetch_brand_secured (users : List UserRec) (decoded : Option TokenPayload)
    (st : BrandTable) (id : Int) : Nat × Option BrandRec :=
  match get_current_active_user users decoded with
  | .error c => (c, none)
  | .ok _ => fetch_brand_by_id st id

/-- `PUT /brands/{id}` behind `RoleChecker(["contributor", "admin"])`. -/
def update_brand_secured (users : List UserRec) (decoded : Option TokenPayload)
    (st : BrandTable) (id : Int) (u : BrandUpdate) (fault : Option DbErr) :
    Nat × BrandTable :=
  match roleChecker ["contributor", "admin"] users decoded with
  | .error c => (c, st)
  | .ok _ => update_brand st id u fault

/-- `DELETE /brands/{id}` behind `RoleChecker(["contributor", "admin"])`. -/
def delete_brand_secured (users : List UserRec) (decoded : Option TokenPayload)
    (st : BrandTable) (id : Int) (fault : Option DbErr) : Nat × BrandTable :=
  match roleChecker ["contributor", "admin"] users decoded with
  | .error c => (c, st)
  | .ok _ => delete_brand st id fault

/-! ### Helper lemmas for the score-CRUD invariant -/

theorem updateScoreRow_pairOf (s : ScoreRow) (obj : BrandCriterionScoreCreate) :
    pairOf (updateScoreRow s obj) = pairOf s := rfl

theorem updateFirstScore_map_pairOf (bid : Int) (obj : BrandCriterionScoreCreate) :
    ∀ st : List ScoreRow, (updateFirstScore bid obj st).map pairOf = st.map pairOf := by
  intro st
  induction st with
  | nil => rfl
  | cons s tl ih =>
    rw [show updateFirstScore bid obj (s :: tl) =
        if s.brand_id = bid ∧ s.criterion_id = obj.criterion_id then
          updateScoreRow s obj :: tl
        else s :: updateFirstScore bid obj tl from rfl]
    split
    · simp [updateScoreRow_pairOf]
    · simp only [List.map_cons, ih]

theorem removeFirstScore_sublist (bid cid : Int) :
    ∀ st : List ScoreRow, List.Sublist (removeFirstScore bid cid st) st := by
  intro st
  induction st with
  | nil => exact List.Sublist.refl _
  | cons s tl ih =>
    unfold removeFirstScore
    split
    · exact List.sublist_cons_self s tl
    · exact List.Sublist.cons₂ s ih

theorem updateFirstScore_cons (bid : Int) (obj : BrandCriterionScoreCreate)
    (x : ScoreRow) (tl : List ScoreRow) :
    updateFirstScore bid obj (x :: tl) =
      if x.brand_id = bid ∧ x.criterion_id = obj.criterion_id then
        updateScoreRow x obj :: tl
      else x :: updateFirstScore bid obj tl := rfl

theorem pairPred_true_iff (bid cid : Int) (s : ScoreRow) :
    pairPred bid cid s = true ↔ (s.brand_id = bid ∧ s.criterion_id = cid) := by
  simp [pairPred]

theorem find?_updateFirstScore (bid : Int) (obj : BrandCriterionScoreCreate) :
    ∀ st : List ScoreRow, ∀ s : ScoreRow,
      st.find? (pairPred bid obj.criterion_id) = some s →
      (updateFirstScore bid obj st).find? (pairPred bid obj.criterion_id)
        = some (updateScoreRow s obj) := by
  intro st
  induction st with
  | nil => intro s h; simp at h
  | cons x tl ih =>
    intro s h
    by_cases hx : x.brand_id = bid ∧ x.criterion_id = obj.criterion_id
    · have hpx : pairPred bid obj.criterion_id x = true :=
        (pairPred_true_iff bid obj.criterion_id x).mpr hx
      have hs : s = x := by
        rw [List.find?_cons_of_pos _ hpx] at h
        exact (Option.some_inj.mp h).symm
      subst hs
      rw [updateFirstScore_cons, if_pos hx]
      have hpu : pairPred bid obj.criterion_id (updateScoreRow s obj) = true := by
        apply (pairPred_true_iff bid obj.criterion_id _).mpr
        simpa [updateScoreRow] using hx
      rw [List.find?_cons_of_pos _ hpu]
    · have hpx : ¬ (pairPred bid obj.criterion_id x = true) := by
        rw [pairPred_true_iff]
        exact hx
      rw [updateFirstScore_cons, if_neg hx]
      rw [List.find?_cons_of_neg _ hpx] at h
      rw [List.find?_cons_of_neg _ hpx]
      exact ih s h

theorem updateFirstScore_length (bid : Int) (obj : BrandCriterionScoreCreate)
    (st : List ScoreRow) : (updateFirstScore bid obj st).length = st.length := by
  have h := congrArg List.length (updateFirstScore_map_pairOf bid obj st)
  simpa using h

/-- C10 — `create_or_update` updates in place (keeping `criterion_id`, ignoring
`None`-valued fields) when a (brand, criterion) row exists and inserts only
when none does; `delete_by_brand_and_criterion` removes the row and returns
`true` exactly when one existed; both preserve the at-most-one-row-per-pair
invariant. -/
theorem claim_C10 (st : List ScoreRow) (bid cid : Int)
    (obj : BrandCriterionScoreCreate) (huniq : uniquePairs st) :
    uniquePairs (create_or_update st bid obj) ∧
    uniquePairs (delete_by_brand_and_criterion st bid cid).1 ∧
    ((delete_by_brand_and_criterion st bid cid).2 = true ↔
      ∃ s ∈ st, s.brand_id = bid ∧ s.criterion_id = cid) ∧
    ((¬ ∃ s ∈ st, s.brand_id = bid ∧ s.criterion_id = obj.criterion_id) →
      create_or_update st bid obj
        = st ++ [{ brand_id := bid, criterion_id := obj.criterion_id,
                   score := obj.score, description := obj.description }]) ∧
    (∀ s : ScoreRow, st.find? (pairPred bid obj.criterion_id) = some s →
      (create_or_update st bid obj).length = st.length ∧
      (create_or_update st bid obj).find? (pairPred bid obj.criterion_id)
        = some { s with score := obj.score,
                        description := match obj.description with
                                       | none => s.description
                                       | some d => some d }) := by
  refine ⟨?_, ?_, ?_, ?_, ?_⟩
  · cases hf : st.find? (pairPred bid obj.criterion_id) with
    | some s =>
      have he : create_or_update st bid obj = updateFirstScore bid obj st := by
        unfold create_or_update
        rw [hf]
      rw [he]
      unfold uniquePairs
      rw [updateFirstScore_map_pairOf]
      exact huniq
    | none =>
      have he : create_or_update st bid obj
          = st ++ [{ brand_id := bid, criterion_id := obj.criterion_id,
                     score := obj.score, description := obj.description }] := by
        unfold create_or_update
        rw [hf]
      rw [he]
      unfold uniquePairs
      rw [List.map_append, List.nodup_append]
      refine ⟨huniq, List.nodup_singleton _, ?_⟩
      intro p hp hq
      simp only [List.map_cons, List.map_nil, List.mem_singleton] at hq
      rcases List.mem_map.mp hp with ⟨s, hs, hps⟩
      have hnp := List.find?_eq_none.mp hf s hs
      apply hnp
      rw [hq] at hps
      simp only [pairOf, Prod.mk.injEq] at hps
      exact (pairPred_true_iff bid obj.criterion_id s).mpr ⟨hps.1, hps.2⟩
  · cases hf : st.find? (pairPred bid cid) with
    | some s =>
      have he : (delete_by_brand_and_criterion st bid cid).1
          = removeFirstScore bid cid st := by
        unfold delete_by_brand_and_criterion
        rw [hf]
      rw [he]
      exact huniq.sublist ((removeFirstScore_sublist bid cid st).map pairOf)
    | none =>
      have he : (delete_by_brand_and_criterion st bid cid).1 = st := by
        unfold delete_by_brand_and_criterion
        rw [hf]
      rw [he]
      exact huniq
  · cases hf : st.find? (pairPred bid cid) with
    | some s =>
      have he : (delete_by_brand_and_criterion st bid cid).2 = true := by
        unfold delete_by_brand_and_criterion
        rw [hf]
      rw [he]
      simp only [true_iff]
      exact ⟨s, List.mem_of_find?_eq_some hf,
        (pairPred_true_iff bid cid s).mp (List.find?_some hf)⟩
    | none =>
      have he : (delete_by_brand_and_criterion st bid cid).2 = false := by
        unfold delete_by_brand_and_criterion
        rw [hf]
      rw [he]
      simp only [Bool.false_eq_true, false_iff]
      rintro ⟨s, hs, h1, h2⟩
      exact List.find?_eq_none.mp hf s hs ((pairPred_true_iff bid cid s).mpr ⟨h1, h2⟩)
  · intro hno
    cases hf : st.find? (pairPred bid obj.criterion_id) with
    | some s =>
      exact absurd ⟨s, List.mem_of_find?_eq_some hf,
        (pairPred_true_iff bid obj.criterion_id s).mp (List.find?_some hf)⟩ hno
    | none =>
      unfold create_or_update
      rw [hf]
  · intro s hf
    have he : create_or_update st bid obj = updateFirstScore bid obj st := by
      unfold create_or_update
      rw [hf]
    rw [he]
    exact ⟨updateFirstScore_length bid obj st, find?_updateFirstScore bid obj st s hf⟩

/-- Witness for `claim_C10` at a concrete state. -/
theorem claim_C10_witness :
    uniquePairs (create_or_update
      [({ brand_id := 1, criterion_id := 2, score := 3 } : ScoreRow)] 1
      { criterion_id := 2, score := 5 }) :=
  (claim_C10 [({ brand_id := 1, criterion_id := 2, score := 3 } : ScoreRow)] 1 2
    { criterion_id := 2, score := 5 } (by decide)).1

/-- C8 — brand routes are gated by JWT role-based auth: an undecodable bearer
token gives 401; a valid token whose subject matches no user gives 404; an
inactive user gives 400; update and delete additionally give 403 unless the
user's role is `contributor` or `admin`; in every rejection no brand data is
returned and the table is unchanged — and an authorized request behaves as the
bare endpoint. -/
theorem claim_C8 (users : List UserRec) (decoded : Option TokenPayload)
    (st : BrandTable) (id : Int) (u : BrandUpdate) (fault : Option DbErr) :
    (decoded = none →
      fetch_brand_secured users decoded st id = (401, none) ∧
      update_brand_secured users decoded st id u fault = (401, st) ∧
      delete_brand_secured users decoded st id fault = (401, st)) ∧
    (∀ t : TokenPayload, decoded = some t →
      users.find? (fun x => x.id = t.sub) = none →
      fetch_brand_secured users decoded st id = (404, none) ∧
      update_brand_secured users decoded st id u fault = (404, st) ∧
      delete_brand_secured users decoded st id fault = (404, st)) ∧
    (∀ t : TokenPayload, ∀ usr : UserRec, decoded = some t →
      users.find? (fun x => x.id = t.sub) = some usr →
      usr.is_active = false →
      fetch_brand_secured users decoded st id = (400, none) ∧
      update_brand_secured users decoded st id u fault = (400, st) ∧
      delete_brand_secured users decoded st id fault = (400, st)) ∧
    (∀ t : TokenPayload, ∀ usr : UserRec, decoded = some t →
      users.find? (fun x => x.id = t.sub) = some usr →
      usr.is_active = true → usr.role = .user →
      update_brand_secured users decoded st id u fault = (403, st) ∧
      delete_brand_secured users decoded st id fault = (403, st)) ∧
    (∀ t : TokenPayload, ∀ usr : UserRec, decoded = some t →
      users.find? (fun x => x.id = t.sub) = some usr →
      usr.is_active = true → (usr.role = .contributor ∨ usr.role = .admin) →
      update_brand_secured users decoded st id u fault = update_brand st id u fault ∧
      delete_brand_secured users decoded st id fault = delete_brand st id fault ∧
      fetch_brand_secured users decoded st id = fetch_brand_by_id st id) := by
  refine ⟨?_, ?_, ?_, ?_, ?_⟩
  · intro hd
    subst hd
    refine ⟨rfl, rfl, rfl⟩
  · intro t hd hf
    subst hd
    simp only [fetch_brand_secured, update_brand_secured, delete_brand_secured,
      roleChecker, get_current_active_user, get_current_user, get_token,
      get_credential_exception, hf]
    exact ⟨trivial, trivial, trivial⟩
  · intro t usr hd hf hin
    subst hd
    simp only [fetch_brand_secured, update_brand_secured, delete_brand_secured,
      roleChecker, get_current_active_user, get_current_user, get_token,
      get_credential_exception, hf, hin, Bool.false_eq_true, if_false]
    exact ⟨trivial, trivial, trivial⟩
  · intro t usr hd hf hact hrole
    subst hd
    simp only [update_brand_secured, delete_brand_secured,
      roleChecker, get_current_active_user, get_current_user, get_token,
      get_credential_exception, hf, hact, hrole, if_true]
    exact ⟨rfl, rfl⟩
  · intro t usr hd hf hact hrole
    subst hd
    have hallow : (["contributor", "admin"] : List String).contains usr.role.toStr
        = true := by
      rcases hrole with h | h <;> rw [h] <;> rfl
    simp only [fetch_brand_secured, update_brand_secured, delete_brand_secured,
      roleChecker, get_current_active_user, get_current_user, get_token,
      get_credential_exception, hf, hact, hallow, if_true]
    exact ⟨trivial, trivial, trivial⟩

/-- Witness for `claim_C8`: a valid token for an active plain `user` is refused
with 403 by the update endpoint and the table is untouched. -/
theorem claim_C8_witness :
    update_brand_secured [{ id := 7, is_active := true, role := .user }]
      (some { sub := 7 }) [{ id := 1, name := "Oreo" }] 1 { name := none } none
      = (403, [{ id := 1, name := "Oreo" }]) :=
  ((claim_C8 [{ id := 7, is_active := true, role := .user }] (some { sub := 7 })
      [{ id := 1, name := "Oreo" }] 1 { name := none } none).2.2.2.1
    { sub := 7 } { id := 7, is_active := true, role := .user } rfl (by decide) rfl rfl).1

/-! ### Helper lemmas for the brand-score hierarchy -/

theorem root_brand_parent_none {f : Nat} {db : ScoringDB} {b r : BrandRow}
    (h : root_brand f db b = some r) : parentOf db r = none := by
  induction f generalizing b with
  | zero => simp [root_brand] at h
  | succ f ih =>
    unfold root_brand at h
    cases hp : parentOf db b with
    | none =>
      rw [hp] at h
      have : b = r := Option.some_inj.mp h
      rw [← this]
      exact hp
    | some p =>
      rw [hp] at h
      exact ih h

theorem root_brand_mem {f : Nat} {db : ScoringDB} {b r : BrandRow}
    (h : root_brand f db b = some r) : r = b ∨ r ∈ db.brands := by
  induction f generalizing b with
  | zero => simp [root_brand] at h
  | succ f ih =>
    unfold root_brand at h
    cases hp : parentOf db b with
    | none =>
      rw [hp] at h
      exact Or.inl (Option.some_inj.mp h).symm
    | some p =>
      rw [hp] at h
      have hpmem : p ∈ db.brands := by
        unfold parentOf at hp
        cases hbp : b.parent_id with
        | none => rw [hbp] at hp; simp at hp
        | some pid =>
          rw [hbp] at hp
          exact List.mem_of_find?_eq_some hp
      rcases ih h with h1 | h1
      · rw [h1]; exact Or.inr hpmem
      · exact Or.inr h1

theorem root_brand_id_ne {f : Nat} {db : ScoringDB} {b r : BrandRow} {p : BrandRow}
    (hnd : (db.brands.map (fun x => x.id)).Nodup) (hb : b ∈ db.brands)
    (hp : parentOf db b = some p) (h : root_brand f db b = some r) :
    r.id ≠ b.id := by
  intro hid
  have hrnone := root_brand_parent_none h
  have hrb : r = b := by
    rcases root_brand_mem h with h1 | h1
    · exact h1
    · exact List.inj_on_of_nodup_map hnd h1 hb hid
  rw [hrb] at hrnone
  rw [hrnone] at hp
  exact Option.noConfusion hp

/-- The one-step unfolding of `scoreFuel` at positive fuel. -/
theorem scoreFuel_succ (f : Nat) (db : ScoringDB) (b : BrandRow) :
    scoreFuel (f + 1) db b =
      match ownScoreFormula db b with
      | some s => some s
      | none =>
        match parentOf db b with
        | none => none
        | some _ =>
          match root_brand (db.brands.length + 1) db b with
          | none => none
          | some root =>
            if root.id = b.id then none
            else
              match scoreFuel f db root with
              | some rootScore => some rootScore
              | none => none := rfl

theorem optionMatchId (o : Option ℚ) :
    (match o with | some s => some s | none => none) = o := by
  cases o <;> rfl

theorem scoreFuel_of_root {f : Nat} {db : ScoringDB} {r : BrandRow}
    (hf : 0 < f) (hr : parentOf db r = none) :
    scoreFuel f db r = ownScoreFormula db r := by
  cases f with
  | zero => omega
  | succ f =>
    rw [scoreFuel_succ]
    cases ho : ownScoreFormula db r with
    | some s => rfl
    | none => simp only [hr]

theorem score_of_own (db : ScoringDB) (b : BrandRow)
    (hown : criterionScores db b ≠ []) (hcrit : db.criteria ≠ []) :
    score db b = some (round2 ((sumScores (criterionScores db b) * 100) /
      ((db.criteria.length : ℚ) * 5))) := by
  have hne : (criterionScores db b).isEmpty = false :=
    List.isEmpty_eq_false.mpr hown
  have hpos : ((db.criteria.length : ℚ) * 5) > 0 := by
    have : 0 < db.criteria.length := List.length_pos.mpr hcrit
    positivity
  have ho : ownScoreFormula db b
      = some (round2 ((sumScores (criterionScores db b) * 100) /
        ((db.criteria.length : ℚ) * 5))) := by
    unfold ownScoreFormula
    rw [hne]
    rw [if_neg (by simp), if_pos hpos]
  unfold score
  rw [scoreFuel_succ]
  simp only [ho]

/-- C4 — `Brand.score` is hierarchical: with own criterion scores and a
non-empty criteria table it is `round(sum * 100 / (count * 5), 2)`; with no own
scores but a resolving parent it equals the root ancestor's score; with neither
it is `None`. -/
theorem claim_C4 (db : ScoringDB) (b : BrandRow) :
    (criterionScores db b ≠ [] → db.criteria ≠ [] →
      score db b = some (round2 ((sumScores (criterionScores db b) * 100) /
        ((db.criteria.length : ℚ) * 5)))) ∧
    (WFBrands db → b ∈ db.brands → criterionScores db b = [] →
      parentOf db b ≠ none →
      ∀ r : BrandRow, root_brand (db.brands.length + 1) db b = some r →
        score db b = score db r) ∧
    (criterionScores db b = [] → parentOf db b = none → score db b = none) := by
  refine ⟨score_of_own db b, ?_, ?_⟩
  · intro hwf hb hown hpar r hroot
    have hne : (criterionScores db b).isEmpty = true := by
      rw [hown]; rfl
    have ho : ownScoreFormula db b = none := by
      unfold ownScoreFormula
      rw [hne]
      rfl
    cases hp : parentOf db b with
    | none => exact absurd hp hpar
    | some p =>
      have hrne : r.id ≠ b.id := root_brand_id_ne hwf.1 hb hp hroot
      have hlen : 0 < db.brands.length := List.length_pos.mpr (List.ne_nil_of_mem hb)
      have hrnone : parentOf db r = none := root_brand_parent_none hroot
      unfold score
      rw [scoreFuel_succ]
      simp only [ho, hp, hroot]
      rw [if_neg hrne]
      rw [scoreFuel_of_root hlen hrnone]
      rw [scoreFuel_of_root (show (0 : Nat) < db.brands.length + 1 by omega) hrnone]
      exact optionMatchId _
  · intro hown hpar
    have hne : (criterionScores db b).isEmpty = true := by
      rw [hown]; rfl
    have ho : ownScoreFormula db b = none := by
      unfold ownScoreFormula
      rw [hne]
      rfl
    unfold score
    rw [scoreFuel_succ]
    simp only [ho, hpar]

/-- The concrete scoring state used by the witnesses: a root brand with one
score on the single criterion and a scoreless child brand. -/
def exDb : ScoringDB :=
  { brands := [{ id := 1 }, { id := 2, parent_id := some 1 }],
    criteria := [{ id := 1 }],
    scores := [{ brand_id := 1, criterion_id := 1, score := 4 }] }

/-- Witness for `claim_C4`: the scoreless child inherits the root's score. -/
theorem claim_C4_witness :
    score exDb { id := 2, parent_id := some 1 } = score exDb { id := 1 } :=
  ((claim_C4 exDb { id := 2, parent_id := some 1 }).2.1)
    (by constructor <;> decide) (by decide) (by decide) (by decide)
    { id := 1 } (by decide)

/-- C1 counterexample — with one criterion and a single own score of 5,
`Brand.score` gives `round(5·100/5, 2) = 100` while
`_calculate_brand_score` gives `round(AVG, 2) = 5`: the three score
computations do not all agree. -/
theorem roundHalfEven_intCast (m : ℤ) : roundHalfEven (m : ℚ) = m := by
  unfold roundHalfEven
  rw [Int.floor_intCast, sub_self]
  rw [if_pos (by norm_num)]

theorem round2_intCast (m : ℤ) : round2 (m : ℚ) = (m : ℚ) := by
  unfold round2
  rw [show ((m : ℚ) * 100) = (((m * 100 : ℤ)) : ℚ) by push_cast; ring,
    roundHalfEven_intCast, Int.cast_mul]
  norm_num

/-- The one-row scoring state of the C1 counterexample. -/
def exC1 : ScoringDB :=
  { brands := [{ id := 1 }], criteria := [{ id := 1 }],
    scores := [{ brand_id := 1, criterion_id := 1, score := 5 }] }

theorem claim_C1_counterexample :
    score exC1 { id := 1 } ≠ calculate_brand_score exC1 1 := by
  have h1 : score exC1 { id := 1 } = some (round2 100) := by
    rw [score_of_own exC1 { id := 1 } (by decide) (by decide)]
    norm_num [show criterionScores exC1 { id := 1 }
        = [{ brand_id := 1, criterion_id := 1, score := 5 }] from rfl,
      sumScores, show exC1.criteria.length = 1 from rfl]
  have h2 : calculate_brand_score exC1 1 = some (round2 5) := by
    unfold calculate_brand_score
    rw [show (exC1.scores.filter (fun s => s.brand_id = 1))
        = [{ brand_id := 1, criterion_id := 1, score := 5 }] from rfl]
    norm_num [sumScores]
  have hr100 : round2 (100 : ℚ) = 100 := by
    have h := round2_intCast (100 : ℤ)
    norm_num at h
    exact h
  have hr5 : round2 (5 : ℚ) = 5 := by
    have h := round2_intCast (5 : ℤ)
    norm_num at h
    exact h
  rw [h1, h2, hr100, hr5]
  norm_num

/-- C1 (amended) — `Brand.score` and `_score_expression` agree (same formula,
same rounding) whenever the brand has at least one criterion score of its own
and the criteria table is non-empty; when the brand has no own scores the SQL
expression is NULL with no parent fallback (while the Python property falls
back to the root ancestor); `_calculate_brand_score` computes
`round(AVG(score), 2)` on the 0–5 scale and disagrees in general. -/
theorem claim_C1 (db : ScoringDB) (b : BrandRow) :
    (criterionScores db b ≠ [] → db.criteria ≠ [] →
      score db b = score_expression db b) ∧
    (criterionScores db b = [] → score_expression db b = none) ∧
    (db.scores.filter (fun s => s.brand_id = b.id) ≠ [] →
      calculate_brand_score db b.id
        = some (round2 (sumScores (db.scores.filter (fun s => s.brand_id = b.id)) /
            ((db.scores.filter (fun s => s.brand_id = b.id)).length : ℚ)))) := by
  refine ⟨?_, ?_, ?_⟩
  · intro hown hcrit
    have hform := score_of_own db b hown hcrit
    have hne : (criterionScores db b).isEmpty = false :=
      List.isEmpty_eq_false.mpr hown
    have hq : ((db.criteria.length : ℚ) * 5) ≠ 0 := by
      have : 0 < db.criteria.length := List.length_pos.mpr hcrit
      positivity
    rw [hform]
    unfold score_expression
    rw [if_neg hq, hne]
    rfl
  · intro hown
    unfold score_expression
    rw [hown]
    simp
  · intro hflt
    have hne : (db.scores.filter (fun s => s.brand_id = b.id)).isEmpty = false :=
      List.isEmpty_eq_false.mpr hflt
    unfold calculate_brand_score
    rw [hne]
    rfl

/-- Witness for `claim_C1`: on the witness state the Python property and the
SQL expression give the same value for the scored root brand. -/
theorem claim_C1_witness :
    score exDb { id := 1 } = score_expression exDb { id := 1 } :=
  ((claim_C1 exDb { id := 1 }).1) (by decide) (by decide)

/-! ### Helper lemmas for the scoring report -/

theorem foldl_reportStep_catScores (db : ScoringDB) (bid : Int) :
    ∀ (cats : List CategoryRow) (acc : ReportAcc),
      (cats.foldl (reportStep db bid) acc).category_scores
        = acc.category_scores ++ cats.map (catEntry db bid) := by
  intro cats
  induction cats with
  | nil => intro acc; simp
  | cons cat cats ih =>
    intro acc
    rw [List.foldl_cons, ih]
    unfold reportStep
    simp

theorem foldl_reportStep_avgs (db : ScoringDB) (bid : Int) :
    ∀ (cats : List CategoryRow) (acc : ReportAcc),
      (cats.foldl (reportStep db bid) acc).all_category_averages
        = acc.all_category_averages ++ cats.filterMap (categoryAverage db bid) := by
  intro cats
  induction cats with
  | nil => intro acc; simp
  | cons cat cats ih =>
    intro acc
    rw [List.foldl_cons, ih]
    unfold reportStep
    cases h : categoryAverage db bid cat with
    | none => simp [h]
    | some a => simp [h]

theorem filterMap_categoryAverage (db : ScoringDB) (bid : Int) :
    ∀ cats : List CategoryRow,
      cats.filterMap (categoryAverage db bid)
        = (cats.filter (fun cat => !(categoryJoinScores db bid cat.id).isEmpty)).map
            (fun cat => sumScores (categoryJoinScores db bid cat.id) /
              ((categoryJoinScores db bid cat.id).length : ℚ)) := by
  intro cats
  induction cats with
  | nil => rfl
  | cons cat cats ih =>
    cases h : (categoryJoinScores db bid cat.id).isEmpty with
    | true =>
      have hc : categoryAverage db bid cat = none := by
        unfold categoryAverage
        rw [h]
        rfl
      simp only [List.filterMap_cons, hc, List.filter_cons, h, Bool.not_true,
        Bool.false_eq_true, if_false]
      exact ih
    | false =>
      have hc : categoryAverage db bid cat
          = some (sumScores (categoryJoinScores db bid cat.id) /
              ((categoryJoinScores db bid cat.id).length : ℚ)) := by
        unfold categoryAverage
        rw [h]
        rfl
      simp only [List.filterMap_cons, hc, List.filter_cons, h, Bool.not_false, if_true,
        List.map_cons]
      rw [ih]

theorem catEntry_average_match (db : ScoringDB) (bid : Int) (cat : CategoryRow) :
    (catEntry db bid cat).average_score
      = match categoryJoinScores db bid cat.id with
        | [] => none
        | l => some (round2 (sumScores l / (l.length : ℚ))) := by
  unfold catEntry categoryAverage
  cases h : categoryJoinScores db bid cat.id with
  | nil => rfl
  | cons x xs => rfl

/-- C5 — for an existing brand each category's `average_score` is the rounded
arithmetic mean of that brand's scores in the category (`None` with no score),
and `global_score` is the rounded mean of the unrounded per-category means
taken over only the categories that have at least one score (not the mean over
all individual scores), `None` when no category has any; an unknown brand_id
yields no report. -/
theorem claim_C5 (db : ScoringDB) (brand_id : Int) :
    (db.brands.find? (fun b => b.id = brand_id) = none →
      get_brand_scoring_report db brand_id = none) ∧
    (∀ brand : BrandRow, db.brands.find? (fun b => b.id = brand_id) = some brand →
      ∃ rep : BrandScoringReport, get_brand_scoring_report db brand_id = some rep ∧
        rep.category_scores.map (fun cs => cs.average_score)
          = db.categories.map (fun cat =>
              match categoryJoinScores db brand_id cat.id with
              | [] => none
              | l => some (round2 (sumScores l / (l.length : ℚ)))) ∧
        rep.global_score =
          (if ((db.categories.filter
                (fun cat => !(categoryJoinScores db brand_id cat.id).isEmpty)).map
                (fun cat => sumScores (categoryJoinScores db brand_id cat.id) /
                  ((categoryJoinScores db brand_id cat.id).length : ℚ))).isEmpty
           then none
           else some (round2
             (((db.categories.filter
                (fun cat => !(categoryJoinScores db brand_id cat.id).isEmpty)).map
                (fun cat => sumScores (categoryJoinScores db brand_id cat.id) /
                  ((categoryJoinScores db brand_id cat.id).length : ℚ))).sum /
              (((db.categories.filter
                (fun cat => !(categoryJoinScores db brand_id cat.id).isEmpty)).map
                (fun cat => sumScores (categoryJoinScores db brand_id cat.id) /
                  ((categoryJoinScores db brand_id cat.id).length : ℚ))).length : ℚ))))) := by
  constructor
  · intro hf
    unfold get_brand_scoring_report
    rw [hf]
  · intro brand hf
    unfold get_brand_scoring_report
    rw [hf]
    refine ⟨_, rfl, ?_, ?_⟩
    · show ((db.categories.foldl (reportStep db brand_id) {}).category_scores).map
        (fun cs => cs.average_score) = _
      rw [foldl_reportStep_catScores]
      simp only [List.nil_append, List.map_map]
      apply List.map_congr_left
      intro cat _
      exact catEntry_average_match db brand_id cat
    · show (if (db.categories.foldl (reportStep db brand_id) {}).all_category_averages.isEmpty
          then none
          else some (round2
            ((db.categories.foldl (reportStep db brand_id) {}).all_category_averages.sum /
             ((db.categories.foldl (reportStep db brand_id) {}).all_category_averages.length
               : ℚ)))) = _
      rw [foldl_reportStep_avgs, filterMap_categoryAverage]
      simp only [List.nil_append]

/-- The scoring state of the C5 witness: one category owning the criterion. -/
def exRep : ScoringDB :=
  { brands := [{ id := 1 }], categories := [{ id := 10 }],
    criteria := [{ id := 1, category_id := 10 }],
    scores := [{ brand_id := 1, criterion_id := 1, score := 4 }] }

/-- Witness for `claim_C5`: the report exists for the witness state and its
per-category averages follow the claimed formula. -/
theorem claim_C5_witness :
    ∃ rep : BrandScoringReport,
      get_brand_scoring_report exRep 1 = some rep ∧
      rep.category_scores.map (fun cs => cs.average_score)
        = exRep.categories.map (fun cat =>
            match categoryJoinScores exRep 1 cat.id with
            | [] => none
            | l => some (round2 (sumScores l / (l.length : ℚ)))) := by
  obtain ⟨rep, h1, h2, h3⟩ := (claim_C5 exRep 1).2 { id := 1 } (by decide)
  exact ⟨rep, h1, h2⟩

/-! ### C6: `get_many` -/

instance (key : String) (descending : Bool) : IsTotal (List Row) (tupleLe key descending) := by
  constructor
  intro a b
  unfold tupleLe
  cases descending with
  | true => simpa using le_total (sortKey ((b.getD 0 []).col key)) (sortKey ((a.getD 0 []).col key))
  | false => simpa using le_total (sortKey ((a.getD 0 []).col key)) (sortKey ((b.getD 0 []).col key))

instance (key : String) (descending : Bool) : IsTrans (List Row) (tupleLe key descending) := by
  constructor
  intro a b c hab hbc
  unfold tupleLe at hab hbc ⊢
  cases descending with
  | true =>
    simp only [if_true] at hab hbc ⊢
    exact le_trans hbc hab
  | false =>
    simp only [Bool.false_eq_true, if_false] at hab hbc ⊢
    exact le_trans hab hbc

/-- C6 — `get_many` returns the filtered records sorted by the effective
`order_by` column (ascending unless `descending`, an unknown field falling back
to `created_at`), with `skip` records dropped and at most `limit` returned,
paired with the pre-pagination count of matching records, which is therefore
independent of `skip` and `limit`. -/
theorem claim_C6 (reg : Registry) (db : DB) (m : ModelDef) (args : List (String × Value))
    (skip limit : Nat) (order_by : String) (descending : Bool) :
    (∀ skip' limit' : Nat,
      (get_many reg db m args skip' limit' order_by descending).2
        = (buildQueryFilters reg db ⟨m, 0⟩ (baseQuery db m) args).tuples.length) ∧
    (get_many reg db m args skip limit order_by descending).1.length ≤ limit ∧
    (∃ full : List (List Row),
      full.Perm (buildQueryFilters reg db ⟨m, 0⟩ (baseQuery db m) args).tuples ∧
      List.Sorted (tupleLe (effectiveOrderKey m order_by) descending) full ∧
      (get_many reg db m args skip limit order_by descending).1
        = ((full.drop skip).take limit).map (fun t => t.getD 0 [])) := by
  refine ⟨fun skip' limit' => rfl, ?_, ?_⟩
  · have he : (get_many reg db m args skip limit order_by descending).1
        = (((List.insertionSort (tupleLe (effectiveOrderKey m order_by) descending)
              (buildQueryFilters reg db ⟨m, 0⟩ (baseQuery db m) args).tuples).drop
            skip).take limit).map (fun t => t.getD 0 []) := rfl
    rw [he, List.length_map]
    exact List.length_take_le limit _
  · exact ⟨List.insertionSort (tupleLe (effectiveOrderKey m order_by) descending)
        (buildQueryFilters reg db ⟨m, 0⟩ (baseQuery db m) args).tuples,
      List.perm_insertionSort _ _, List.sorted_insertionSort _ _, rfl⟩

/-! ### Helper lemmas for `buildQueryFilters` -/

theorem string_mk_data (s : String) : String.mk s.data = s := rfl

theorem splitOnce_eq_none_of_hasSub_false {pat s : List Char}
    (h : hasSub pat s = false) : splitOnce pat s = none := by
  unfold hasSub at h
  unfold splitOnce
  cases hfi : firstIdx pat s with
  | none => rfl
  | some i => rw [hfi] at h; simp at h

theorem processArgs_nil (reg : Registry) (db : DB) (ent : Entity) (q : Query)
    (fby : List (String × Value)) :
    processArgs reg db ent q fby []
      = match q.filterBy fby with
        | some q' => q'
        | none => q := by
  conv_lhs => rw [processArgs]

theorem processArgs_nil_nil (reg : Registry) (db : DB) (ent : Entity) (q : Query) :
    processArgs reg db ent q [] [] = q := by
  rw [processArgs_nil]
  rfl

theorem processArgs_cons (reg : Registry) (db : DB) (ent : Entity) (q : Query)
    (fby : List (String × Value)) (f : List Char) (v : Value)
    (rest : List (List Char × Value)) :
    processArgs reg db ent q fby ((f, v) :: rest)
      = match applyKey reg db ent q f v with
        | .error q' => q'
        | .ok (q', none) => processArgs reg db ent q' fby rest
        | .ok (q', some kv) => processArgs reg db ent q' (fby ++ [kv]) rest := by
  conv_lhs => rw [processArgs]

/-- The loop body on an operator key `field__ope` with a known column and
operator: the clause is attached to the queried entity's column. -/
theorem applyKey_op (reg : Registry) (db : DB) (m : ModelDef) (idx : Nat) (q : Query)
    (key field ope : String) (v : Value) (pred : Value → Bool)
    (h1 : hasSub RELATION_SPLITTER key.data = false)
    (h2 : splitOnce OPERATOR_SPLITTER key.data = some (field.data, ope.data))
    (h3 : m.attrs.contains field = true)
    (h4 : OPERATOR_MAPPING_KEYS.contains ope = true)
    (h5 : applyOperator ope v = some pred) :
    applyKey reg db ⟨m, idx⟩ q key.data v = .ok (q.filterAt idx field pred, none) := by
  unfold applyKey
  rw [splitOnce_eq_none_of_hasSub_false h1]
  simp only [h2, string_mk_data, h3, h4, h5, if_true]

/-- The loop body on a plain key naming a column: collected into `filters_by`. -/
theorem applyKey_plain (reg : Registry) (db : DB) (m : ModelDef) (idx : Nat) (q : Query)
    (field : String) (v : Value)
    (h1 : hasSub RELATION_SPLITTER field.data = false)
    (h2 : splitOnce OPERATOR_SPLITTER field.data = none)
    (h3 : gettable m field = true) :
    applyKey reg db ⟨m, idx⟩ q field.data v = .ok (q, some (field, v)) := by
  unfold applyKey
  rw [splitOnce_eq_none_of_hasSub_false h1]
  simp only [h2, string_mk_data, h3, if_true]

/-- C3 — a `field__operator` key with a model attribute and a supported
operator extends the query with exactly that operator's predicate on the
model's column; a plain key naming a model attribute becomes an equality
(`filter_by`) predicate. -/
theorem claim_C3 (reg : Registry) (db : DB) (m : ModelDef) (idx : Nat) (q : Query)
    (field ope : String) (v : Value) (pred : Value → Bool)
    (h1 : hasSub RELATION_SPLITTER (field ++ "__" ++ ope).data = false)
    (h2 : splitOnce OPERATOR_SPLITTER (field ++ "__" ++ ope).data
            = some (field.data, ope.data))
    (h3 : m.attrs.contains field = true)
    (h4 : OPERATOR_MAPPING_KEYS.contains ope = true)
    (h5 : applyOperator ope v = some pred) :
    buildQueryFilters reg db ⟨m, idx⟩ q [(field ++ "__" ++ ope, v)]
      = q.filterAt idx field pred ∧
    (∀ pfield : String, ∀ pv : Value,
      hasSub RELATION_SPLITTER pfield.data = false →
      splitOnce OPERATOR_SPLITTER pfield.data = none →
      m.attrs.contains pfield = true →
      q.jp = m → q.jpIdx = idx →
      buildQueryFilters reg db ⟨m, idx⟩ q [(pfield, pv)]
        = { q with tuples := q.tuples.filter (fun t =>
            sqlEqB ((t.getD idx []).col pfield) pv) }) := by
  constructor
  · unfold buildQueryFilters
    simp only [List.map_cons, List.map_nil]
    rw [processArgs_cons, applyKey_op reg db m idx q _ field ope v pred h1 h2 h3 h4 h5]
    exact processArgs_nil_nil reg db ⟨m, idx⟩ _
  · intro pfield pv p1 p2 p3 hjp hjpi
    have hget : gettable m pfield = true := by
      unfold gettable
      rw [p3]
      rfl
    unfold buildQueryFilters
    simp only [List.map_cons, List.map_nil]
    rw [processArgs_cons, applyKey_plain reg db m idx q pfield pv p1 p2 hget]
    show processArgs reg db ⟨m, idx⟩ q [(pfield, pv)] [] = _
    rw [processArgs_nil]
    have hfb : q.filterBy [(pfield, pv)]
        = some { q with tuples := q.tuples.filter (fun t =>
            sqlEqB ((t.getD idx []).col pfield) pv) } := by
      unfold Query.filterBy
      rw [if_neg (by simp)]
      rw [if_pos (by simp [hjp]; simpa using p3)]
      have hc : ∀ t ∈ q.tuples,
          ([(pfield, pv)].all (fun kv => sqlEqB ((t.getD q.jpIdx []).col kv.1) kv.2))
            = sqlEqB ((t.getD idx []).col pfield) pv := by
        intro t _
        simp [hjpi]
      rw [List.filter_congr hc]
    rw [hfb]

/-- The Brand mapper as `buildQueryFilters` sees it. -/
def brandModelDef : ModelDef :=
  { tableName := "brands",
    attrs := ["id", "created_at", "updated_at", "name", "email", "logo_path",
              "boycott", "background", "parent_id"],
    rels := [("parent", { target := "brands", localKey := "parent_id", remoteKey := "id" }),
             ("children", { target := "brands", localKey := "id", remoteKey := "parent_id" })] }

/-- A one-brand query state for the C3 witness. -/
def exQ3 : Query :=
  { tuples := [[[("name", Value.str "Oreo")]]], width := 1,
    jp := brandModelDef, jpIdx := 0 }

/-- Witness for `claim_C3`: `name__ilike` on the brands model filters by an
ILIKE predicate on `name`. -/
theorem claim_C3_witness :
    buildQueryFilters [brandModelDef] [] ⟨brandModelDef, 0⟩ exQ3
        [("name__ilike", Value.str "or%")]
      = exQ3.filterAt 0 "name"
          (fun c => match c, Value.str "or%" with
            | .str t, .str p => likeMatch (lowerL p.data) (lowerL t.data)
            | _, _ => false) :=
  (claim_C3 [brandModelDef] [] brandModelDef 0 exQ3 "name" "ilike" (Value.str "or%") _
    (by decide) (by decide) (by decide) (by decide) rfl).1

/-- The loop body on a single-level relation key `rel___field__ope`: joins an
alias of the related class and filters on the aliased column. -/
theorem applyKey_rel (reg : Registry) (db : DB) (m : ModelDef) (idx : Nat) (q : Query)
    (key relf rest rfield ope : String) (rd : RelDef) (rModel : ModelDef)
    (v : Value) (pred : Value → Bool)
    (hsp : splitOnce RELATION_SPLITTER key.data = some (relf.data, rest.data))
    (hrel : m.rels.lookup relf = some rd)
    (hmod : findModel reg rd.target = some rModel)
    (hnn : hasSub RELATION_SPLITTER rest.data = false)
    (hrs : rsplitOnce OPERATOR_SPLITTER rest.data = some (rfield.data, ope.data))
    (hattr : rModel.attrs.contains rfield = true)
    (hop : OPERATOR_MAPPING_KEYS.contains ope = true)
    (hpred : applyOperator ope v = some pred) :
    applyKey reg db ⟨m, idx⟩ q key.data v
      = .ok ((q.joinRel db idx rd rModel).filterAt q.width rfield pred, none) := by
  unfold applyKey
  rw [hsp]
  simp only [string_mk_data, hrel, hmod, hnn, Bool.false_eq_true, if_false, hrs,
    hattr, hop, hpred, if_true]

/-- The loop body on a nested relation key `rel___rest` (`rest` containing a
further `___`): the inner dict `{rest: value}` is built recursively on the
query joined to the alias, and the stray `rsplit` then raises `AttributeError`,
escaping with exactly the recursively built query. -/
theorem applyKey_rel_nested (reg : Registry) (db : DB) (m : ModelDef) (idx : Nat)
    (q : Query) (key relf rest a b : String) (rd : RelDef) (rModel : ModelDef)
    (v : Value)
    (hsp : splitOnce RELATION_SPLITTER key.data = some (relf.data, rest.data))
    (hrel : m.rels.lookup relf = some rd)
    (hmod : findModel reg rd.target = some rModel)
    (hnn : hasSub RELATION_SPLITTER rest.data = true)
    (hrs : rsplitOnce OPERATOR_SPLITTER rest.data = some (a.data, b.data))
    (hattr : rModel.attrs.contains a = false)
    (hrattr : (rModel.rels.lookup a).isSome = false) :
    applyKey reg db ⟨m, idx⟩ q key.data v
      = .error (processArgs reg db ⟨rModel, q.width⟩ (q.joinRel db idx rd rModel)
          [] [(rest.data, v)]) := by
  unfold applyKey
  rw [hsp]
  simp only [string_mk_data, hrel, hmod, hnn, if_true, hrs, hattr,
    Bool.false_eq_true, if_false, hrattr]

/-- C2 — a `relation___field__operator` key joins the query to an alias of the
related class and applies the operator's predicate to the aliased related
column (so, for `Brand.parent`, to the parent row's column and not the queried
row's); a key with a further nested relation is handled recursively. The third
part instantiates this for the self-referential `parent___name__ilike` filter:
a brand row is returned exactly when a parent row exists whose `name` matches. -/
theorem claim_C2 (reg : Registry) (db : DB) (m : ModelDef) (idx : Nat) (q : Query)
    (v : Value) :
    (∀ key relf rest rfield ope : String, ∀ rd : RelDef, ∀ rModel : ModelDef,
      ∀ pred : Value → Bool,
      splitOnce RELATION_SPLITTER key.data = some (relf.data, rest.data) →
      m.rels.lookup relf = some rd →
      findModel reg rd.target = some rModel →
      hasSub RELATION_SPLITTER rest.data = false →
      rsplitOnce OPERATOR_SPLITTER rest.data = some (rfield.data, ope.data) →
      rModel.attrs.contains rfield = true →
      OPERATOR_MAPPING_KEYS.contains ope = true →
      applyOperator ope v = some pred →
      buildQueryFilters reg db ⟨m, idx⟩ q [(key, v)]
        = (q.joinRel db idx rd rModel).filterAt q.width rfield pred) ∧
    (∀ key relf rest a b : String, ∀ rd : RelDef, ∀ rModel : ModelDef,
      splitOnce RELATION_SPLITTER key.data = some (relf.data, rest.data) →
      m.rels.lookup relf = some rd →
      findModel reg rd.target = some rModel →
      hasSub RELATION_SPLITTER rest.data = true →
      rsplitOnce OPERATOR_SPLITTER rest.data = some (a.data, b.data) →
      rModel.attrs.contains a = false →
      (rModel.rels.lookup a).isSome = false →
      buildQueryFilters reg db ⟨m, idx⟩ q [(key, v)]
        = buildQueryFilters reg db ⟨rModel, q.width⟩ (q.joinRel db idx rd rModel)
            [(rest, v)]) ∧
    (∀ brands : List Row, ∀ pat : String, ∀ x : Row,
      x ∈ (buildQueryFilters [brandModelDef] [("brands", brands)] ⟨brandModelDef, 0⟩
            (baseQuery [("brands", brands)] brandModelDef)
            [("parent___name__ilike", Value.str pat)]).baseRows
        ↔ (x ∈ brands ∧ ∃ par ∈ brands,
            (sqlEqB (x.col "parent_id") (par.col "id") &&
              !sqlIsNull (x.col "parent_id")) = true ∧
            (match par.col "name", Value.str pat with
             | Value.str t, Value.str p => likeMatch (lowerL p.data) (lowerL t.data)
             | _, _ => false) = true)) := by
  refine ⟨?_, ?_, ?_⟩
  · intro key relf rest rfield ope rd rModel pred hsp hrel hmod hnn hrs hattr hop hpred
    unfold buildQueryFilters
    simp only [List.map_cons, List.map_nil]
    rw [processArgs_cons,
      applyKey_rel reg db m idx q key relf rest rfield ope rd rModel v pred
        hsp hrel hmod hnn hrs hattr hop hpred]
    exact processArgs_nil_nil reg db ⟨m, idx⟩ _
  · intro key relf rest a b rd rModel hsp hrel hmod hnn hrs hattr hrattr
    unfold buildQueryFilters
    simp only [List.map_cons, List.map_nil]
    rw [processArgs_cons,
      applyKey_rel_nested reg db m idx q key relf rest a b rd rModel v
        hsp hrel hmod hnn hrs hattr hrattr]
  · intro brands pat x
    have hrows : DB.rows [("brands", brands)] brandModelDef.tableName = brands := rfl
    have hbuild : buildQueryFilters [brandModelDef] [("brands", brands)]
          ⟨brandModelDef, 0⟩ (baseQuery [("brands", brands)] brandModelDef)
          [("parent___name__ilike", Value.str pat)]
        = ((baseQuery [("brands", brands)] brandModelDef).joinRel
            [("brands", brands)] 0
            { target := "brands", localKey := "parent_id", remoteKey := "id" }
            brandModelDef).filterAt 1 "name"
            (fun c => match c, Value.str pat with
             | Value.str t, Value.str p => likeMatch (lowerL p.data) (lowerL t.data)
             | _, _ => false) := by
      unfold buildQueryFilters
      simp only [List.map_cons, List.map_nil]
      rw [processArgs_cons,
        applyKey_rel [brandModelDef] [("brands", brands)] brandModelDef 0 _
          "parent___name__ilike" "parent" "name__ilike" "name" "ilike"
          { target := "brands", localKey := "parent_id", remoteKey := "id" }
          brandModelDef (Value.str pat) _
          (by decide) rfl rfl (by decide) (by decide) (by decide)
          (by decide) rfl]
      exact processArgs_nil_nil _ _ _ _
    rw [hbuild]
    have htup : (((baseQuery [("brands", brands)] brandModelDef).joinRel
            [("brands", brands)] 0
            { target := "brands", localKey := "parent_id", remoteKey := "id" }
            brandModelDef).filterAt 1 "name"
            (fun c => match c, Value.str pat with
             | Value.str t, Value.str p => likeMatch (lowerL p.data) (lowerL t.data)
             | _, _ => false)).tuples
        = ((brands.map (fun r => [r])).flatMap (fun t =>
            brands.filterMap (fun r =>
              if (sqlEqB ((t.getD 0 []).col "parent_id") (r.col "id") &&
                  !sqlIsNull ((t.getD 0 []).col "parent_id")) = true then
                some (t ++ [r])
              else none))).filter
            (fun t => (fun c => match c, Value.str pat with
               | Value.str t, Value.str p => likeMatch (lowerL p.data) (lowerL t.data)
               | _, _ => false) ((t.getD 1 []).col "name")) := by
      unfold Query.filterAt Query.joinRel baseQuery
      rw [hrows]
    show x ∈ List.map _ _ ↔ _
    rw [htup]
    constructor
    · intro hx
      obtain ⟨t, htm, hhead⟩ := List.mem_map.mp hx
      obtain ⟨htT, hp⟩ := List.mem_filter.mp htm
      obtain ⟨t0, ht0, htf⟩ := List.mem_flatMap.mp htT
      obtain ⟨b1, hb1, hb1e⟩ := List.mem_map.mp ht0
      obtain ⟨r, hr, hif⟩ := List.mem_filterMap.mp htf
      rw [Option.ite_none_right_eq_some] at hif
      obtain ⟨hcond, hteq⟩ := hif
      have hteq' : t0 ++ [r] = t := Option.some_inj.mp hteq
      rw [← hb1e] at hcond hteq'
      rw [← hteq'] at hhead hp
      have hx1 : x = b1 := by
        rw [← hhead]
        rfl
      subst hx1
      refine ⟨hb1, r, hr, ?_, ?_⟩
      · simpa using hcond
      · simpa using hp
    · rintro ⟨hx, par, hpar, hcond, hp⟩
      apply List.mem_map.mpr
      refine ⟨[x] ++ [par], List.mem_filter.mpr ⟨?_, ?_⟩, rfl⟩
      · apply List.mem_flatMap.mpr
        refine ⟨[x], List.mem_map.mpr ⟨x, hx, rfl⟩, ?_⟩
        apply List.mem_filterMap.mpr
        refine ⟨par, hpar, ?_⟩
        rw [Option.ite_none_right_eq_some]
        exact ⟨by simpa using hcond, rfl⟩
      · simpa using hp

/-- Witness for `claim_C2`: the concrete `parent___name__ilike` filter is the
join-plus-aliased-predicate query. -/
theorem claim_C2_witness :
    buildQueryFilters [brandModelDef] [] ⟨brandModelDef, 0⟩ exQ3
        [("parent___name__ilike", Value.str "nes%")]
      = (exQ3.joinRel [] 0
          { target := "brands", localKey := "parent_id", remoteKey := "id" }
          brandModelDef).filterAt exQ3.width "name"
          (fun c => match c, Value.str "nes%" with
            | Value.str t, Value.str p => likeMatch (lowerL p.data) (lowerL t.data)
            | _, _ => false) :=
  ((claim_C2 [brandModelDef] [] brandModelDef 0 exQ3 (Value.str "nes%")).1)
    "parent___name__ilike" "parent" "name__ilike" "name" "ilike"
    { target := "brands", localKey := "parent_id", remoteKey := "id" } brandModelDef _
    (by decide) (by decide) (by decide) (by decide) (by decide) (by decide)
    (by decide) rfl

/-! ### C9: leniency of `buildQueryFilters` -/

theorem applyKey_skip_op (reg : Registry) (db : DB) (m : ModelDef) (idx : Nat)
    (q : Query) (key fn op : String) (v : Value)
    (h1 : hasSub RELATION_SPLITTER key.data = false)
    (h2 : splitOnce OPERATOR_SPLITTER key.data = some (fn.data, op.data))
    (h3 : gettable m fn = false ∨ OPERATOR_MAPPING_KEYS.contains op = false) :
    applyKey reg db ⟨m, idx⟩ q key.data v = .ok (q, none) := by
  unfold applyKey
  rw [splitOnce_eq_none_of_hasSub_false h1]
  rcases h3 with h3 | h3
  · have hab : m.attrs.contains fn = false ∧ (m.rels.lookup fn).isSome = false := by
      unfold gettable at h3
      exact Bool.or_eq_false_iff.mp h3
    simp only [h2, string_mk_data, hab.1, hab.2, Bool.false_eq_true, if_false]
  · cases ha : m.attrs.contains fn with
    | true => simp only [h2, string_mk_data, ha, if_true, h3, Bool.false_eq_true, if_false]
    | false =>
      cases hr : (m.rels.lookup fn).isSome with
      | true =>
        simp only [h2, string_mk_data, ha, Bool.false_eq_true, if_false, hr, if_true, h3]
      | false =>
        simp only [h2, string_mk_data, ha, Bool.false_eq_true, if_false, hr]

theorem applyKey_skip_plain (reg : Registry) (db : DB) (m : ModelDef) (idx : Nat)
    (q : Query) (key : String) (v : Value)
    (h1 : hasSub RELATION_SPLITTER key.data = false)
    (h2 : splitOnce OPERATOR_SPLITTER key.data = none)
    (h3 : gettable m key = false) :
    applyKey reg db ⟨m, idx⟩ q key.data v = .ok (q, none) := by
  unfold applyKey
  rw [splitOnce_eq_none_of_hasSub_false h1]
  simp only [h2, string_mk_data, h3, Bool.false_eq_true, if_false]

theorem applyKey_skip_rel (reg : Registry) (db : DB) (m : ModelDef) (idx : Nat)
    (q : Query) (key relf : String) (restk : List Char) (v : Value)
    (hsp : splitOnce RELATION_SPLITTER key.data = some (relf.data, restk))
    (hrel : m.rels.lookup relf = none) :
    applyKey reg db ⟨m, idx⟩ q key.data v = .ok (q, none) := by
  unfold applyKey
  rw [hsp]
  simp only [string_mk_data, hrel]

/-- The abort path: a single-level relation key whose related field is neither
a column nor a relationship of the target raises `AttributeError` before any
join or filter is attached. -/
theorem applyKey_rel_badfield (reg : Registry) (db : DB) (m : ModelDef) (idx : Nat)
    (q : Query) (key relf rest a b : String) (rd : RelDef) (rModel : ModelDef)
    (v : Value)
    (hsp : splitOnce RELATION_SPLITTER key.data = some (relf.data, rest.data))
    (hrel : m.rels.lookup relf = some rd)
    (hmod : findModel reg rd.target = some rModel)
    (hnn : hasSub RELATION_SPLITTER rest.data = false)
    (hrs : rsplitOnce OPERATOR_SPLITTER rest.data = some (a.data, b.data))
    (hattr : rModel.attrs.contains a = false)
    (hrattr : (rModel.rels.lookup a).isSome = false) :
    applyKey reg db ⟨m, idx⟩ q key.data v = .error q := by
  unfold applyKey
  rw [hsp]
  simp only [string_mk_data, hrel, hmod, hnn, Bool.false_eq_true, if_false, hrs,
    hattr, hrattr]

/-- A key whose loop body is a no-op can be deleted from the argument list. -/
theorem processArgs_skip (reg : Registry) (db : DB) (ent : Entity)
    (key : List Char) (v : Value)
    (h : ∀ q : Query, applyKey reg db ent q key v = .ok (q, none)) :
    ∀ (args₁ args₂ : List (List Char × Value)) (q : Query)
      (fby : List (String × Value)),
      processArgs reg db ent q fby (args₁ ++ (key, v) :: args₂)
        = processArgs reg db ent q fby (args₁ ++ args₂) := by
  intro args₁
  induction args₁ with
  | nil =>
    intro args₂ q fby
    rw [List.nil_append, List.nil_append, processArgs_cons, h q]
  | cons hd tl ih =>
    intro args₂ q fby
    obtain ⟨f0, v0⟩ := hd
    rw [List.cons_append, List.cons_append, processArgs_cons, processArgs_cons]
    cases happ : applyKey reg db ent q f0 v0 with
    | error q' => rfl
    | ok r =>
      obtain ⟨q', kv⟩ := r
      cases kv with
      | none => simp only []; exact ih args₂ q' fby
      | some kv => simp only []; exact ih args₂ q' (fby ++ [kv])

/-- C9 — `buildQueryFilters` is lenient: an empty filter dict leaves the query
unchanged; a key naming an unknown attribute, an unknown operator, or an
undeclared relation contributes no predicate and the remaining keys are still
processed; and when an exception is raised while handling a key (an unknown
field behind a declared relation), the function returns the query built so
far, dropping the rest, instead of propagating the error. -/
theorem claim_C9 (reg : Registry) (db : DB) (ent : Entity) (q : Query) (v : Value) :
    (buildQueryFilters reg db ent q [] = q) ∧
    (∀ key fn op : String, ∀ args₁ args₂ : List (String × Value),
      hasSub RELATION_SPLITTER key.data = false →
      splitOnce OPERATOR_SPLITTER key.data = some (fn.data, op.data) →
      (gettable ent.model fn = false ∨ OPERATOR_MAPPING_KEYS.contains op = false) →
      buildQueryFilters reg db ent q (args₁ ++ (key, v) :: args₂)
        = buildQueryFilters reg db ent q (args₁ ++ args₂)) ∧
    (∀ key : String, ∀ args₁ args₂ : List (String × Value),
      hasSub RELATION_SPLITTER key.data = false →
      splitOnce OPERATOR_SPLITTER key.data = none →
      gettable ent.model key = false →
      buildQueryFilters reg db ent q (args₁ ++ (key, v) :: args₂)
        = buildQueryFilters reg db ent q (args₁ ++ args₂)) ∧
    (∀ key relf : String, ∀ restk : List Char, ∀ args₁ args₂ : List (String × Value),
      splitOnce RELATION_SPLITTER key.data = some (relf.data, restk) →
      ent.model.rels.lookup relf = none →
      buildQueryFilters reg db ent q (args₁ ++ (key, v) :: args₂)
        = buildQueryFilters reg db ent q (args₁ ++ args₂)) ∧
    (∀ key relf rest a b : String, ∀ rd : RelDef, ∀ rModel : ModelDef,
      ∀ more : List (String × Value),
      splitOnce RELATION_SPLITTER key.data = some (relf.data, rest.data) →
      ent.model.rels.lookup relf = some rd →
      findModel reg rd.target = some rModel →
      hasSub RELATION_SPLITTER rest.data = false →
      rsplitOnce OPERATOR_SPLITTER rest.data = some (a.data, b.data) →
      rModel.attrs.contains a = false →
      (rModel.rels.lookup a).isSome = false →
      buildQueryFilters reg db ent q ((key, v) :: more) = q) := by
  obtain ⟨m, idx⟩ := ent
  refine ⟨processArgs_nil_nil reg db ⟨m, idx⟩ q, ?_, ?_, ?_, ?_⟩
  · intro key fn op args₁ args₂ h1 h2 h3
    unfold buildQueryFilters
    simp only [List.map_append, List.map_cons]
    exact processArgs_skip reg db ⟨m, idx⟩ key.data v
      (fun q' => applyKey_skip_op reg db m idx q' key fn op v h1 h2 h3) _ _ q []
  · intro key args₁ args₂ h1 h2 h3
    unfold buildQueryFilters
    simp only [List.map_append, List.map_cons]
    exact processArgs_skip reg db ⟨m, idx⟩ key.data v
      (fun q' => applyKey_skip_plain reg db m idx q' key v h1 h2 h3) _ _ q []
  · intro key relf restk args₁ args₂ hsp hrel
    unfold buildQueryFilters
    simp only [List.map_append, List.map_cons]
    exact processArgs_skip reg db ⟨m, idx⟩ key.data v
      (fun q' => applyKey_skip_rel reg db m idx q' key relf restk v hsp hrel) _ _ q []
  · intro key relf rest a b rd rModel more hsp hrel hmod hnn hrs hattr hrattr
    unfold buildQueryFilters
    simp only [List.map_cons]
    rw [processArgs_cons,
      applyKey_rel_badfield reg db m idx q key relf rest a b rd rModel v
        hsp hrel hmod hnn hrs hattr hrattr]

/-- Witness for `claim_C9`: a `name__lookalike` key (`lookalike` is not in the
operator mapping) narrows nothing. -/
theorem claim_C9_witness :
    buildQueryFilters [brandModelDef] [] ⟨brandModelDef, 0⟩ exQ3
        [("name__lookalike", Value.str "Oreo")]
      = buildQueryFilters [brandModelDef] [] ⟨brandModelDef, 0⟩ exQ3 [] :=
  ((claim_C9 [brandModelDef] [] ⟨brandModelDef, 0⟩ exQ3 (Value.str "Oreo")).2.1)
    "name__lookalike" "name" "lookalike" [] [] (by decide) (by decide)
    (Or.inr (by decide))

end VeganApi
